import Mathlib

/-!
Verification development for the winboat port-negotiation and container
lifecycle engine.  The embedding shallowly models the TypeScript sources:
JavaScript strings become lists of characters, JavaScript numbers that may
be NaN become values of type `Option Int` (`none` models NaN), code that
can throw returns `Except String`, and event or socket effects become
explicit oracles and outcome values.
-/

set_option maxRecDepth 10000

namespace Js

/-- JavaScript strings are modelled as lists of characters. -/
abbrev JsStr := List Char

/-- A JavaScript number restricted to the integer or NaN values the sources
produce: `none` models NaN, `some n` models the integer `n`. -/
abbrev JsNum := Option Int

/-- Whitespace recognizer used by the models of parseInt and trim. -/
def isJsWs (c : Char) : Bool :=
  c = ' ' ∨ c = '\t' ∨ c = '\n' ∨ c = '\r'

/-- Model of JavaScript String.prototype.split with a single-character
separator: splits into the chunks between separator occurrences, keeping
empty chunks. -/
def jsSplit (sep : Char) : JsStr → List JsStr
  | [] => [[]]
  | c :: rest =>
    if c = sep then
      [] :: jsSplit sep rest
    else
      match jsSplit sep rest with
      | [] => [[c]]
      | t :: ts => (c :: t) :: ts

/-- Index of the first occurrence of `needle` in `hay`, scanning left to
right; `none` when absent.  Helper for the model of String.indexOf. -/
def firstOccur (needle : JsStr) : JsStr → Nat → Option Nat
  | hay, i =>
    if needle.isPrefixOf hay then some i
    else
      match hay with
      | [] => none
      | _ :: t => firstOccur needle t (i + 1)

/-- Model of JavaScript String.prototype.indexOf: the first occurrence
index, or -1 when the needle is absent. -/
def jsIndexOf (needle hay : JsStr) : Int :=
  match firstOccur needle hay 0 with
  | some n => (n : Int)
  | none => -1

/-- Model of JavaScript String.prototype.includes. -/
def jsIncludes (needle hay : JsStr) : Bool :=
  (firstOccur needle hay 0).isSome

/-- Clamp an integer index into `[0, len]`, as String.prototype.substring
does with its arguments. -/
def clampIdx (i : Int) (len : Nat) : Nat :=
  if i < 0 then 0 else min i.toNat len

/-- Model of JavaScript String.prototype.substring: clamps both indices to
the string bounds and swaps them when given in reverse order. -/
def jsSubstring (s : JsStr) (a b : Int) : JsStr :=
  let x := clampIdx a s.length
  let y := clampIdx b s.length
  (s.take (max x y)).drop (min x y)

/-- Model of JavaScript String.prototype.trim. -/
def jsTrim (s : JsStr) : JsStr :=
  ((s.dropWhile isJsWs).reverse.dropWhile isJsWs).reverse

/-- Numeric value of a list of decimal digit characters. -/
def digitsVal (ds : JsStr) : Nat :=
  ds.foldl (fun a c => 10 * a + (c.toNat - 48)) 0

/-- Numeric value of a list of hexadecimal digit characters. -/
def hexVal (ds : JsStr) : Nat :=
  ds.foldl (fun a c =>
    16 * a +
      (if c.toNat ≥ 97 then c.toNat - 87
       else if c.toNat ≥ 65 then c.toNat - 55
       else c.toNat - 48)) 0

/-- Longest leading run of decimal digits interpreted as a number; `none`
when there is no leading digit (parseInt returns NaN there). -/
def parseDecDigits (s : JsStr) : Option Nat :=
  let ds := s.takeWhile Char.isDigit
  if ds = [] then none else some (digitsVal ds)

/-- Leading hexadecimal digits interpreted as a number; `none` when there
are none. -/
def parseHexDigits (s : JsStr) : Option Nat :=
  let ds := s.takeWhile (fun c => c.isDigit ∨ (97 ≤ c.toNat ∧ c.toNat ≤ 102) ∨ (65 ≤ c.toNat ∧ c.toNat ≤ 70))
  if ds = [] then none else some (hexVal ds)

/-- Unsigned part of the parseInt model, including the 0x hexadecimal
prefix JavaScript recognizes. -/
def parseUnsigned (s : JsStr) : Option Nat :=
  match s with
  | c :: x :: rest =>
    if c = '0' ∧ (x = 'x' ∨ x = 'X') then parseHexDigits rest
    else parseDecDigits (c :: x :: rest)
  | _ => parseDecDigits s

/-- Sign and magnitude part of the parseInt model, applied after leading
whitespace has been removed. -/
def jsParseIntTrimmed : JsStr → JsNum
  | [] => (parseUnsigned []).map (fun n => (n : Int))
  | c :: rest =>
    if c = '-' then (parseUnsigned rest).map (fun n => -(n : Int))
    else if c = '+' then (parseUnsigned rest).map (fun n => (n : Int))
    else (parseUnsigned (c :: rest)).map (fun n => (n : Int))

/-- Model of JavaScript parseInt on a string: skips leading whitespace,
honors an optional sign and the 0x prefix, reads the longest digit run and
ignores trailing garbage; `none` models the NaN result. -/
def jsParseInt (s : JsStr) : JsNum :=
  jsParseIntTrimmed (s.dropWhile isJsWs)

/-- Decimal digit character for a value below ten. -/
def digitChar (d : Nat) : Char := Char.ofNat (48 + d)

/-- Fuel-driven digit expansion backing decRepr; the fuel only serves to
make the recursion structural, any fuel above the value is enough. -/
def decReprAux : Nat → Nat → JsStr
  | 0, _ => []
  | fuel + 1, n =>
    if n < 10 then [digitChar n]
    else decReprAux fuel (n / 10) ++ [digitChar (n % 10)]

/-- Decimal representation of a natural number, as template-literal
interpolation renders nonnegative integers. -/
def decRepr (n : Nat) : JsStr := decReprAux (n + 1) n

/-- Template-literal rendering of a JavaScript number from our fragment:
NaN prints as "NaN", integers print in decimal with a leading minus sign
when negative. -/
def numToStr : JsNum → JsStr
  | none => ['N', 'a', 'N']
  | some i => if i < 0 then '-' :: decRepr i.natAbs else decRepr i.natAbs

/-- Addition where NaN absorbs, as JavaScript + on numbers. -/
def jsAdd (a : JsNum) (b : Int) : JsNum :=
  a.map (fun x => x + b)

/-- Absolute difference of two JavaScript numbers, NaN absorbing. -/
def jsDist (a b : JsNum) : JsNum :=
  match a, b with
  | some x, some y => some ((x - y).natAbs)
  | _, _ => none

/-- Comparison a <= b where any NaN operand yields false, as JavaScript
relational operators do. -/
def jsLe (a : JsNum) (b : Int) : Bool :=
  match a with
  | some x => x ≤ b
  | none => false

end Js

namespace PortModel

open Js

/-- Hexadecimal digit recognizer for the IPv6 validator model. -/
def isHexDigitChar (c : Char) : Bool :=
  c.isDigit ∨ ('a' ≤ c ∧ c ≤ 'f') ∨ ('A' ≤ c ∧ c ≤ 'F')

/-- Modelled from the spec: validity of a dotted-quad IPv4 literal as
checked by the node net.isIPv4 library routine (an external dependency,
not part of this repository): four dot-separated decimal groups, each of
one to three digits, value at most 255, without leading zeros. -/
def isIPv4 (s : JsStr) : Bool :=
  let parts := jsSplit '.' s
  parts.length = 4 ∧
    parts.all (fun p =>
      p ≠ [] ∧ p.all Char.isDigit ∧ p.length ≤ 3 ∧ digitsVal p ≤ 255 ∧
        (p.length = 1 ∨ p.head? ≠ some '0'))

/-- Shape check on the colon-separated groups of an IPv6 literal: either
eight nonempty groups, or a single compression marker (one run of empty
groups produced by a double colon) at the start, the end, or the middle. -/
def ip6ShapeOk (gs : List JsStr) : Bool :=
  if gs.all (fun g => g ≠ []) then gs.length = 8
  else if gs = [[], [], []] then true
  else
    match gs with
    | [] :: [] :: rest => rest.all (fun g => g ≠ []) ∧ rest.length ≤ 7
    | _ =>
      match gs.reverse with
      | [] :: [] :: rest => rest.all (fun g => g ≠ []) ∧ rest.length ≤ 7
      | _ =>
        gs.countP (fun g => g = []) = 1 ∧ gs.head? ≠ some [] ∧
          gs.getLast? ≠ some [] ∧ gs.length ≤ 8

/-- Modelled from the spec: validity of an IPv6 literal as checked by the
node net.isIPv6 library routine (an external dependency, not part of this
repository): hexadecimal groups of at most four digits separated by
colons, with at most one double-colon compression. -/
def isIPv6 (s : JsStr) : Bool :=
  let gs := jsSplit ':' s
  gs.all (fun g => g.length ≤ 4 ∧ g.all isHexDigitChar) ∧ ip6ShapeOk gs

/-- Protocol of a short-form compose port entry. -/
inductive PortEntryProtocol
  | tcp
  | udp
deriving DecidableEq

/-- Compose string fragment of a protocol value. -/
def protoStr : PortEntryProtocol → JsStr
  | .tcp => ('t' :: 'c' :: 'p' :: [])
  | .udp => ('u' :: 'd' :: 'p' :: [])

/-- A port component: either a single port number or a Range value with
start and end fields (rstart and rend here, end being reserved). -/
inductive PortOrRange
  | port (v : JsNum)
  | range (rstart rend : JsNum)
deriving DecidableEq

/-- Range constructor from the compose token form start-end: splits on the
dash and parses both sides; missing or junk pieces become NaN. -/
def rangeOfToken (token : JsStr) : PortOrRange :=
  let splitToken := jsSplit '-' token
  .range (jsParseInt (splitToken.headD [])) (jsParseInt ((splitToken.get? 1).getD []))

/-- Template rendering of a port component: Range.toString produces
start-end, numbers render as decimal or NaN. -/
def tokStr : PortOrRange → JsStr
  | .port v => numToStr v
  | .range a b => numToStr a ++ '-' :: numToStr b

/-- parsePortOrRange: a token containing a dash parses as a Range,
anything else goes through parseInt. -/
def parsePortOrRange (token : JsStr) : PortOrRange :=
  if token.contains '-' then rangeOfToken token
  else .port (jsParseInt token)

/-- Which side of the mapping parsePort extracts. -/
inductive PortType
  | HOST
  | CONTAINER
deriving DecidableEq

/-- parsePort: splits the entry on colons; a single token maps host and
container alike, otherwise the host token is the second to last colon
chunk and the container token is the last chunk with any protocol suffix
stripped. -/
def parsePort (ptype : PortType) (entry : JsStr) : PortOrRange :=
  let portEntry := jsSplit ':' entry
  let guest := (jsSplit '/' (portEntry.getLast?.getD [])).headD []
  if portEntry.length = 1 then parsePortOrRange guest
  else if ptype = .HOST then
    parsePortOrRange ((portEntry.get? (portEntry.length - 2)).getD [])
  else parsePortOrRange guest

/-- parseProtocol of the first model: the text after the first slash;
absent or empty (JavaScript falsy) defaults to tcp, tcp and udp map to
themselves, anything else throws. -/
def parseProtocol (entry : JsStr) : Except String PortEntryProtocol :=
  match (jsSplit '/' entry).get? 1 with
  | none => .ok .tcp
  | some p =>
    if p = [] then .ok .tcp
    else if p = protoStr .tcp then .ok .tcp
    else if p = protoStr .udp then .ok .udp
    else .error "Protocol is not supported by the compose spec."

/-- checkValidIP: accepts the candidate only when it is a valid IPv4 or
IPv6 literal, otherwise throws. -/
def checkValidIP (ip entry : JsStr) : Except String JsStr :=
  if ¬ isIPv4 ip ∧ ¬ isIPv6 ip then
    .error "Invalid compose entry IP"
  else .ok ip

/-- The default wildcard bind address. -/
def defaultHostIP : JsStr := ('0' :: '.' :: '0' :: '.' :: '0' :: '.' :: '0' :: [])

/-- parseIP of the first model: with fewer than three colon chunks the
default address applies; otherwise the address is the text before the
first occurrence of the host token (the second to last chunk, or the last
chunk when the host chunk is empty under the podman publish syntax),
unbracketed when enclosed in square brackets, then validated. -/
def parseIP (entry : JsStr) : Except String JsStr :=
  let parts := jsSplit ':' entry
  if parts.length < 3 then .ok defaultHostIP
  else
    let lp0 := (parts.get? (parts.length - 2)).getD []
    let lastPort := if lp0.length = 0 then parts.getLast?.getD [] else lp0
    let colonNum : Int := if lp0.length = 0 then 2 else 1
    let hostPortLocation := jsIndexOf lastPort entry - colonNum
    let rawIP := jsSubstring entry 0 hostPortLocation
    if rawIP.head? ≠ some '[' then checkValidIP rawIP entry
    else checkValidIP (jsSubstring rawIP 1 ((rawIP.length : Int) - 1)) entry

/-- A JavaScript number value the parsers can produce in a port position:
NaN or a nonnegative integer. -/
def goodNum (v : JsNum) : Prop := ∀ i, v = some i → 0 ≤ i

/-- Port components whose numeric pieces are NaN or nonnegative. -/
def goodPort : PortOrRange → Prop
  | .port v => goodNum v
  | .range a b => goodNum a ∧ goodNum b

/-- One parsed short-form compose port mapping of the first model. -/
structure ComposePortEntry where
  hostIP : JsStr
  host : PortOrRange
  container : PortOrRange
  protocol : PortEntryProtocol
deriving DecidableEq

/-- The entry getter: always renders the fully qualified four-part form
address, host, container and protocol. -/
def entryStr (e : ComposePortEntry) : JsStr :=
  e.hostIP ++ ':' :: tokStr e.host ++ ':' :: tokStr e.container ++ '/' :: protoStr e.protocol

/-- The string constructor of ComposePortEntry: parses the address, both
port components and the protocol, propagating the throws of parseIP and
parseProtocol in source order. -/
def parseEntry (entry : JsStr) : Except String ComposePortEntry :=
  match parseIP entry with
  | .error e => .error e
  | .ok ip =>
    match parseProtocol entry with
    | .error e => .error e
    | .ok p => .ok ⟨ip, parsePort .HOST entry, parsePort .CONTAINER entry, p⟩

end PortModel

namespace Constants

/-- Well-known guest port of the remote desktop service. -/
def GUEST_RDP_PORT : Int := 3389

/-- Well-known guest port of the web console. -/
def GUEST_NOVNC_PORT : Int := 8006

/-- Well-known guest port of the management API. -/
def GUEST_API_PORT : Int := 7148

/-- Well-known guest port of the hardware control protocol. -/
def GUEST_QMP_PORT : Int := 7149

/-- Largest 16-bit port number. -/
def PORT_MAX : Int := 65535

/-- Width of the forward scan window used when a desired host port is
taken. -/
def PORT_SEARCH_RANGE : Int := 100

/-- Fixed spacing added when a candidate lies too close to an accepted
binding. -/
def PORT_SPACING : Int := 1000

end Constants

namespace PortManagerModel

open Js

/-- Protocol field of the second model: tcp, udp, or `none` for the
undefined value denoting absence of a protocol suffix. -/
abbrev PortEntryProtocol := Option PortModel.PortEntryProtocol

/-- One parsed compose port entry of the second model.  The source class
extends String; the inherited string value is never read by the manager
logic (the entry getter recomputes the text from the fields), so only the
fields are modelled. -/
structure ComposePortEntry where
  hostPort : JsNum
  guestPort : JsNum
  protocol : PortEntryProtocol
deriving DecidableEq

/-- parseProtocol of the second model: the text after the first slash when
it is tcp or udp, undefined otherwise. -/
def parseProtocol (entry : JsStr) : PortEntryProtocol :=
  let protocol := (jsSplit '/' entry).get? 1
  if protocol = some (PortModel.protoStr .tcp) then some .tcp
  else if protocol = some (PortModel.protoStr .udp) then some .udp
  else none

/-- The string constructor of the second model: splits on colons, strips a
protocol suffix from every chunk, and parseInts the first two chunks; a
missing chunk parses to NaN. -/
def parse (entry : JsStr) : ComposePortEntry :=
  let portEntry := (jsSplit ':' entry).map (fun x => (jsSplit '/' x).headD [])
  { hostPort := jsParseInt (portEntry.headD [])
    guestPort := jsParseInt ((portEntry.get? 1).getD [])
    protocol := parseProtocol entry }

/-- fromPorts: renders a host:guest(/protocol) string and parses it back
through the string constructor, exactly as the source does. -/
def fromPorts (hostPort guestPort : JsNum) (protocol : PortEntryProtocol) : ComposePortEntry :=
  let protocolString := match protocol with
    | some p => '/' :: PortModel.protoStr p
    | none => []
  parse (numToStr hostPort ++ ':' :: numToStr guestPort ++ protocolString)

/-- The entry getter of the second model: host:guest, with a slash and the
protocol only when a protocol is present. -/
def entryStr (e : ComposePortEntry) : JsStr :=
  let delim : JsStr := match e.protocol with | some _ => ['/'] | none => []
  let protoTxt : JsStr := match e.protocol with | some p => PortModel.protoStr p | none => []
  numToStr e.hostPort ++ ':' :: numToStr e.guestPort ++ delim ++ protoTxt

/-- The insertion-ordered map from guest port to entry backing a
PortManager.  JavaScript Map keys compare with SameValueZero, under which
NaN equals NaN, so Option equality on the model keys is faithful. -/
abbrev Ports := List (JsNum × ComposePortEntry)

/-- Map.set: overwrite in place when the key exists, append otherwise. -/
def mapSet (m : Ports) (k : JsNum) (v : ComposePortEntry) : Ports :=
  match m with
  | [] => [(k, v)]
  | (k0, v0) :: rest => if k0 = k then (k0, v) :: rest else (k0, v0) :: mapSet rest k v

/-- Map.get: the value stored under the key, if any. -/
def mapGet (m : Ports) (k : JsNum) : Option ComposePortEntry :=
  match m with
  | [] => none
  | (k0, v0) :: rest => if k0 = k then some v0 else mapGet rest k

/-- The negotiation state: the guest-port keyed map of entries. -/
structure PortManager where
  ports : Ports
deriving DecidableEq

/-- getPortDistance: absolute difference of two host ports. -/
def getPortDistance (port1 port2 : JsNum) : JsNum := jsDist port1 port2

/-- Outcome of the listening attempt made by the isPortOpen probe: the
server either emits listening, or emits an error carrying a code. -/
inductive ListenOutcome
  | listening
  | errorCode (code : JsStr)
deriving DecidableEq

/-- Settlement behavior of the promise returned by isPortOpen, given the
outcome of the listening attempt.  The first component is the settled
value (`none` means the promise never settles: neither handler calls
resolve, and reject is never called); the second records whether the
probe socket was released by server.close (the listening handler resolves
true and then closes the socket; the error handler never closes). -/
def isPortOpenRun (o : ListenOutcome) : Option Bool × Bool :=
  match o with
  | .listening => (some true, true)
  | .errorCode code =>
    if code = ('E' :: 'A' :: 'D' :: 'D' :: 'R' :: 'I' :: 'N' :: 'U' :: 'S' :: 'E' :: []) then
      (some false, false)
    else (none, false)

/-- getOpenPortInRange: scans candidates minPort + i for i from 0 while
i <= maxPort (the loop bound of the source compares the counter, not the
candidate, against maxPort) and returns the first candidate the probe
reports open; undefined when the loop ends.  The probe is abstracted as
the oracle openPort giving the settled value of isPortOpen. -/
def getOpenPortInRange (openPort : JsNum → Bool) (minPort maxPort : JsNum) : Option JsNum :=
  match maxPort with
  | none => none
  | some m =>
    if m < 0 then none
    else
      ((List.range (m.toNat + 1)).find? (fun i => openPort (jsAdd minPort (i : Int)))).map
        (fun i => jsAdd minPort (i : Int))

/-- setPortMapping: when the desired host port is reported taken and
probing is enabled, scan forward from hostPort + 1 with upper argument
hostPort + PORT_SEARCH_RANGE and throw when nothing is found; finally
store an entry built by fromPorts under the guest port. -/
def setPortMapping (openPort : JsNum → Bool) (findOpenPorts : Bool)
    (protocol : PortEntryProtocol) (guestPort hostPort : JsNum)
    (pm : PortManager) : Except String PortManager :=
  if ¬ openPort hostPort ∧ findOpenPorts then
    match getOpenPortInRange openPort (jsAdd hostPort 1) (jsAdd hostPort Constants.PORT_SEARCH_RANGE) with
    | none => .error "No open port found in range"
    | some randomOpenPort =>
      .ok ⟨mapSet pm.ports guestPort (fromPorts randomOpenPort guestPort protocol)⟩
  else
    .ok ⟨mapSet pm.ports guestPort (fromPorts hostPort guestPort protocol)⟩

/-- The body of the parseCompose loop over the pre-parsed entries, also
threading the separately tracked remote desktop host port: an entry within
PORT_SEARCH_RANGE of some accepted binding is shifted by PORT_SPACING;
remote desktop entries only update the tracked port; the rest go through
setPortMapping with the propagated options (which carry no protocol). -/
def parseComposeLoop (openPort : JsNum → Bool) (findOpenPorts : Bool) :
    List ComposePortEntry → PortManager → JsNum → Except String (PortManager × JsNum)
  | [], pm, rdpHostPort => .ok (pm, rdpHostPort)
  | e0 :: rest, pm, rdpHostPort =>
    let e :=
      if pm.ports.any (fun kv => jsLe (getPortDistance kv.2.hostPort e0.hostPort) Constants.PORT_SEARCH_RANGE) then
        { e0 with hostPort := jsAdd e0.hostPort Constants.PORT_SPACING }
      else e0
    if e.guestPort = some Constants.GUEST_RDP_PORT then
      parseComposeLoop openPort findOpenPorts rest pm e.hostPort
    else
      match setPortMapping openPort findOpenPorts none e.guestPort e.hostPort pm with
      | .error msg => .error msg
      | .ok pm1 => parseComposeLoop openPort findOpenPorts rest pm1 rdpHostPort

/-- parseCompose: maps the raw port strings of the specification through
the entry parser, runs the loop starting from an empty manager with the
remote desktop host port defaulted to the guest value, and finally maps
the remote desktop guest port through setPortMapping. -/
def parseCompose (openPort : JsNum → Bool) (findOpenPorts : Bool)
    (rawPorts : List JsStr) : Except String PortManager :=
  match parseComposeLoop openPort findOpenPorts (rawPorts.map parse) ⟨[]⟩ (some Constants.GUEST_RDP_PORT) with
  | .error msg => .error msg
  | .ok res => setPortMapping openPort findOpenPorts none (some Constants.GUEST_RDP_PORT) res.2 res.1

/-- getHostPort: the mapped host port, or the guest port itself when the
guest port has no mapping. -/
def getHostPort (pm : PortManager) (guestPort : JsNum) : JsNum :=
  match mapGet pm.ports guestPort with
  | some e => e.hostPort
  | none => guestPort

/-- The composeFormat getter: serializes every entry in insertion order;
the remote desktop entry is emitted twice, once forced to tcp and once to
udp. -/
def composeFormat (pm : PortManager) : List JsStr :=
  pm.ports.flatMap (fun kv =>
    if kv.2.guestPort ≠ some Constants.GUEST_RDP_PORT then [entryStr kv.2]
    else [entryStr { kv.2 with protocol := some .tcp },
          entryStr { kv.2 with protocol := some .udp }])

end PortManagerModel

namespace Docker

open Js

/-- The closed ContainerStatus enumeration of containers/container.ts:
CREATED, RUNNING, PAUSED, EXITED and UNKNOWN, exactly the members the
docker adapter references. -/
inductive ContainerStatus
  | CREATED
  | RUNNING
  | PAUSED
  | EXITED
  | UNKNOWN
deriving DecidableEq

/-- The statusMap object literal of getStatus: property lookup on the six
documented runtime status strings; any other key misses and yields the
JavaScript undefined, modelled as `none`. -/
def statusMap (s : JsStr) : Option ContainerStatus :=
  if s = ('c' :: 'r' :: 'e' :: 'a' :: 't' :: 'e' :: 'd' :: []) then some .CREATED
  else if s = ('r' :: 'e' :: 's' :: 't' :: 'a' :: 'r' :: 't' :: 'i' :: 'n' :: 'g' :: []) then some .UNKNOWN
  else if s = ('r' :: 'u' :: 'n' :: 'n' :: 'i' :: 'n' :: 'g' :: []) then some .RUNNING
  else if s = ('p' :: 'a' :: 'u' :: 's' :: 'e' :: 'd' :: []) then some .PAUSED
  else if s = ('e' :: 'x' :: 'i' :: 't' :: 'e' :: 'd' :: []) then some .EXITED
  else if s = ('d' :: 'e' :: 'a' :: 'd' :: []) then some .UNKNOWN
  else none

/-- getStatus: the exec invocation either fails (`none` argument; the
catch branch returns UNKNOWN) or yields stdout, which is trimmed and
looked up in statusMap with no fallback.  The result `none` models the
undefined value the source returns for an unrecognized status string.
The function is total, so getStatus never throws. -/
def getStatus (execResult : Option JsStr) : Option ContainerStatus :=
  match execResult with
  | none => some .UNKNOWN
  | some stdout => statusMap (jsTrim stdout)

/-- The slice of the specification document these claims touch: the port
binding string list of the windows service. -/
structure ComposeConfig where
  ports : List JsStr
deriving DecidableEq

/-- Contents written to a file; the YAML serialization is kept abstract as
the value it was produced from, since no claim depends on the bytes. -/
inductive FileContent
  | yamlOf (c : ComposeConfig)
deriving DecidableEq

/-- Filesystem and container actions performed by the write paths, in
program order. -/
inductive FsOp
  | writeFile (path : JsStr) (content : FileContent)
  | rename (src dst : JsStr)
  | mkdir (path : JsStr)
  | containerStop
  | composeDown
  | composeUp
deriving DecidableEq

/-- Path of the persisted specification file inside the winboat
directory. -/
def composeFilePath (winboatDir : JsStr) : JsStr :=
  winboatDir ++ ('/' :: 'd' :: 'o' :: 'c' :: 'k' :: 'e' :: 'r' :: '-' :: 'c' :: 'o' :: 'm' :: 'p' :: 'o' :: 's' :: 'e' :: '.' :: 'y' :: 'm' :: 'l' :: [])

/-- writeCompose: a single direct writeFileSync of the serialized document
to the specification path. -/
def writeCompose (winboatDir : JsStr) (compose : ComposeConfig) : List FsOp :=
  [FsOp.writeFile (composeFilePath winboatDir) (FileContent.yamlOf compose)]

end Docker

namespace PortConfigModel

open Js

/-- The port configuration derived from the persisted specification. -/
structure PortConfiguration where
  rdpPort : JsNum
  vncWebPort : JsNum
  guestApiPort : JsNum
  qemuQmpPort : JsNum
deriving DecidableEq

/-- Shared extraction step of getPortConfigurationFromCompose: find the
first port string satisfying the predicate, take the text before the
first colon, fall back to the default on a missing entry or an empty
leading chunk (both falsy), and parseInt the result. -/
def extractPort (ports : List JsStr) (pred : JsStr → Bool) (defaultStr : JsStr) : JsNum :=
  match ports.find? pred with
  | some p =>
    let first := (jsSplit ':' p).headD []
    jsParseInt (if first = [] then defaultStr else first)
  | none => jsParseInt defaultStr

/-- JavaScript strict inequality on numbers: NaN compares unequal to
everything, including NaN. -/
def jsStrictNeq (a b : JsNum) : Bool :=
  match a, b with
  | some x, some y => x ≠ y
  | _, _ => true

/-- Needle for the tcp remote desktop lookup. -/
def rdpTcpNeedle : JsStr := (':' :: '3' :: '3' :: '8' :: '9' :: '/' :: 't' :: 'c' :: 'p' :: [])

/-- Needle for the udp remote desktop lookup. -/
def rdpUdpNeedle : JsStr := (':' :: '3' :: '3' :: '8' :: '9' :: '/' :: 'u' :: 'd' :: 'p' :: [])

/-- The default remote desktop port text. -/
def rdpDefaultStr : JsStr := ('3' :: '3' :: '8' :: '9' :: [])

/-- getPortConfigurationFromCompose: `none` argument models an absent (or
unreadable) specification file, which returns null; otherwise the port
strings are scanned.  When the tcp and udp remote desktop host ports
differ under strict inequality the function throws, the surrounding try
catches, and null is returned, so no configuration is derived. -/
def getPortConfigurationFromCompose (file : Option (List JsStr)) : Option PortConfiguration :=
  match file with
  | none => none
  | some ports =>
    let rdpTcpPort := extractPort ports (fun p => jsIncludes rdpTcpNeedle p) rdpDefaultStr
    let rdpUdpPort := extractPort ports (fun p => jsIncludes rdpUdpNeedle p) rdpDefaultStr
    if jsStrictNeq rdpTcpPort rdpUdpPort then none
    else
      some
        { rdpPort := rdpTcpPort
          vncWebPort := extractPort ports (fun p => (':' :: '8' :: '0' :: '0' :: '6' :: []).isSuffixOf p) ('8' :: '0' :: '0' :: '6' :: [])
          guestApiPort := extractPort ports (fun p => (':' :: '7' :: '1' :: '4' :: '8' :: []).isSuffixOf p) ('7' :: '1' :: '4' :: '8' :: [])
          qemuQmpPort := extractPort ports (fun p => (':' :: '7' :: '1' :: '4' :: '9' :: []).isSuffixOf p) ('7' :: '1' :: '4' :: '9' :: []) }

end PortConfigModel

namespace WinboatModel

open Js

/-- Guest metrics snapshot (cpu, ram, disk blocks flattened). -/
structure Metrics where
  cpuUsage : Nat
  cpuFrequency : Nat
  ramUsed : Nat
  ramTotal : Nat
  ramPercentage : Nat
  diskUsed : Nat
  diskTotal : Nat
  diskPercentage : Nat
deriving DecidableEq

/-- The zeroed metrics value the orchestrator starts from. -/
def defaultMetrics : Metrics := ⟨0, 0, 0, 0, 0, 0, 0, 0⟩

/-- Observable orchestrator state: the last seen container status, the
four dependent poller handles (true when the interval is set), the
observable flags, the metrics snapshot, the hardware control manager
handle, and the experimental features configuration flag. -/
structure WinboatState where
  containerStatus : Docker.ContainerStatus
  healthInterval : Bool
  metricsInterval : Bool
  rdpConnectionStatusInterval : Bool
  qmpInterval : Bool
  isOnline : Bool
  rdpConnected : Bool
  metrics : Metrics
  qmpMgr : Bool
  experimentalFeatures : Bool
deriving DecidableEq

/-- createAPIIntervals: clears and recreates the health, metrics and
remote desktop pollers; the hardware control poller is created only under
the experimental features flag. -/
def createAPIIntervals (st : WinboatState) : WinboatState :=
  { st with
    healthInterval := true
    metricsInterval := true
    rdpConnectionStatusInterval := true
    qmpInterval := st.experimentalFeatures }

/-- destroyAPIIntervals: clears every poller handle that is set; clearing
the health poller also forces isOnline to false, clearing the remote
desktop poller also forces rdpConnected to false, and clearing the
hardware control poller destroys its manager.  The metrics snapshot is
left untouched. -/
def destroyAPIIntervals (st : WinboatState) : WinboatState :=
  { st with
    healthInterval := false
    isOnline := if st.healthInterval then false else st.isOnline
    metricsInterval := false
    rdpConnectionStatusInterval := false
    rdpConnected := if st.rdpConnectionStatusInterval then false else st.rdpConnected
    qmpInterval := false
    qmpMgr := if st.qmpInterval then false else st.qmpMgr }

/-- One tick of the permanent one second status interval: on a status
change, transition into running creates the dependent pollers and any
other transition destroys them. -/
def statusTick (st : WinboatState) (newStatus : Docker.ContainerStatus) : WinboatState :=
  if newStatus = st.containerStatus then st
  else
    let st1 := { st with containerStatus := newStatus }
    if newStatus = Docker.ContainerStatus.RUNNING then createAPIIntervals st1
    else destroyAPIIntervals st1

/-- Path of the backup directory used by replaceCompose. -/
def backupDir (winboatDir : JsStr) : JsStr :=
  winboatDir ++ ('/' :: 'b' :: 'a' :: 'c' :: 'k' :: 'u' :: 'p' :: [])

/-- Timestamped backup file name used by replaceCompose. -/
def backupName (winboatDir : JsStr) (nowMs : Nat) : JsStr :=
  backupDir winboatDir ++ '/' :: decRepr nowMs ++ ('-' :: 'd' :: 'o' :: 'c' :: 'k' :: 'e' :: 'r' :: '-' :: 'c' :: 'o' :: 'm' :: 'p' :: 'o' :: 's' :: 'e' :: '.' :: 'y' :: 'm' :: 'l' :: [])

/-- replaceCompose: stops the container when it is running, composes the
service set down, ensures the backup directory, renames the current
specification file to a timestamped backup, writes the new document via
writeCompose, and composes back up. -/
def replaceCompose (winboatDir : JsStr) (nowMs : Nat) (containerRunning : Bool)
    (backupDirExists : Bool) (compose : Docker.ComposeConfig) : List Docker.FsOp :=
  (if containerRunning then [Docker.FsOp.containerStop] else []) ++
  [Docker.FsOp.composeDown] ++
  (if backupDirExists then [] else [Docker.FsOp.mkdir (backupDir winboatDir)]) ++
  [Docker.FsOp.rename (Docker.composeFilePath winboatDir) (backupName winboatDir nowMs)] ++
  Docker.writeCompose winboatDir compose ++
  [Docker.FsOp.composeUp]

end WinboatModel

namespace Install

/-- The installation states, named as the InstallStates keys of the
source. -/
inductive InstallState
  | IDLE
  | CREATING_COMPOSE_FILE
  | CREATING_OEM
  | STARTING_CONTAINER
  | MONITORING_PREINSTALL
  | INSTALLING_WINDOWS
  | COMPLETED
  | INSTALL_ERROR
deriving DecidableEq

/-- The linear state order the claim describes, ending in the success
state. -/
def linearStates : List InstallState :=
  [.IDLE, .CREATING_COMPOSE_FILE, .CREATING_OEM, .STARTING_CONTAINER,
   .MONITORING_PREINSTALL, .INSTALLING_WINDOWS, .COMPLETED]

/-- The sequence of state assignments performed by one invocation of
install, given which step throws.  Every step changes state before any of
its fallible work (createComposeFile, createOEMAssets and startContainer
call changeState first; monitorContainerPreinstall only sleeps before its
changeState; monitorAPIHealth swallows all errors inside its loop, so
when it settles it has emitted INSTALLING_WINDOWS and then COMPLETED).
The catch branch of install emits INSTALL_ERROR and returns; the success
path emits COMPLETED a second time after the try block. -/
def runInstall (composeFails oemFails startFails preinstallFails : Bool) : List InstallState :=
  let t1 := [InstallState.CREATING_COMPOSE_FILE]
  if composeFails then t1 ++ [.INSTALL_ERROR]
  else
    let t2 := t1 ++ [.CREATING_OEM]
    if oemFails then t2 ++ [.INSTALL_ERROR]
    else
      let t3 := t2 ++ [.STARTING_CONTAINER]
      if startFails then t3 ++ [.INSTALL_ERROR]
      else
        let t4 := t3 ++ [.MONITORING_PREINSTALL]
        if preinstallFails then t4 ++ [.INSTALL_ERROR]
        else t4 ++ [.INSTALLING_WINDOWS, .COMPLETED] ++ [.COMPLETED]

/-- Collapse of consecutive duplicates, used to compare a state trace
against the claimed linear order. -/
def dedupConsec {α : Type} [DecidableEq α] : List α → List α
  | [] => []
  | [a] => [a]
  | a :: b :: t => if a = b then dedupConsec (b :: t) else a :: dedupConsec (b :: t)

/-- The trace the claim predicts: the linear order up to and including the
state of the failing step, then the terminal error state; the full linear
order when nothing fails. -/
def claimedTrace (composeFails oemFails startFails preinstallFails : Bool) : List InstallState :=
  if composeFails then linearStates.take 2 ++ [.INSTALL_ERROR]
  else if oemFails then linearStates.take 3 ++ [.INSTALL_ERROR]
  else if startFails then linearStates.take 4 ++ [.INSTALL_ERROR]
  else if preinstallFails then linearStates.take 5 ++ [.INSTALL_ERROR]
  else linearStates

end Install

namespace Js

theorem jsSplit_ne_nil (sep : Char) (s : JsStr) : jsSplit sep s ≠ [] := by
  induction s with
  | nil => simp [jsSplit]
  | cons c rest ih =>
    unfold jsSplit
    by_cases hc : c = sep
    · simp [hc]
    · simp only [if_neg hc]
      cases h : jsSplit sep rest <;> simp

theorem jsSplit_no_sep (sep : Char) (s : JsStr) (h : sep ∉ s) : jsSplit sep s = [s] := by
  induction s with
  | nil => rfl
  | cons c rest ih =>
    have hc : ¬ c = sep := by
      intro e
      exact h (e ▸ List.mem_cons_self c rest)
    have hr : sep ∉ rest := fun m => h (List.mem_cons_of_mem c m)
    unfold jsSplit
    rw [if_neg hc, ih hr]

theorem jsSplit_append (sep : Char) (a b : JsStr) :
    jsSplit sep (a ++ sep :: b) = jsSplit sep a ++ jsSplit sep b := by
  induction a with
  | nil => simp [jsSplit]
  | cons c rest ih =>
    by_cases hc : c = sep
    · show jsSplit sep (c :: (rest ++ sep :: b)) = jsSplit sep (c :: rest) ++ jsSplit sep b
      simp only [jsSplit]
      rw [if_pos hc, if_pos hc, ih]
      simp
    · show jsSplit sep (c :: (rest ++ sep :: b)) = jsSplit sep (c :: rest) ++ jsSplit sep b
      simp only [jsSplit]
      rw [if_neg hc, if_neg hc, ih]
      rcases h : jsSplit sep rest with _ | ⟨t, ts⟩
      · exact absurd h (jsSplit_ne_nil sep rest)
      · simp

theorem mem_of_mem_jsSplit (sep : Char) (s : JsStr) (c : Char) (hm : c ∈ s) :
    c = sep ∨ ∃ p ∈ jsSplit sep s, c ∈ p := by
  induction s with
  | nil => cases hm
  | cons d rest ih =>
    rw [List.mem_cons] at hm
    by_cases hd : d = sep
    · rcases hm with h0 | hm2
      · exact Or.inl (h0.trans hd)
      · rcases ih hm2 with h1 | ⟨p, hp, hcp⟩
        · exact Or.inl h1
        · refine Or.inr ⟨p, ?_, hcp⟩
          simp only [jsSplit]
          rw [if_pos hd]
          exact List.mem_cons_of_mem _ hp
    · rcases h : jsSplit sep rest with _ | ⟨t, ts⟩
      · exact absurd h (jsSplit_ne_nil sep rest)
      · rcases hm with h0 | hm2
        · refine Or.inr ⟨d :: t, ?_, h0 ▸ List.mem_cons_self d t⟩
          simp only [jsSplit]
          rw [if_neg hd, h]
          exact List.mem_cons_self _ _
        · rcases ih hm2 with h1 | ⟨p, hp, hcp⟩
          · exact Or.inl h1
          · rw [h] at hp
            rw [List.mem_cons] at hp
            rcases hp with h2 | hp2
            · refine Or.inr ⟨d :: t, ?_, ?_⟩
              · simp only [jsSplit]
                rw [if_neg hd, h]
                exact List.mem_cons_self _ _
              · exact List.mem_cons_of_mem d (h2 ▸ hcp)
            · refine Or.inr ⟨p, ?_, hcp⟩
              simp only [jsSplit]
              rw [if_neg hd, h]
              exact List.mem_cons_of_mem _ hp2

end Js

namespace Js

theorem digitChar_toNat (d : Nat) (h : d < 10) : (digitChar d).toNat = 48 + d := by
  interval_cases d <;> decide

theorem digitChar_isDigit (d : Nat) (h : d < 10) : (digitChar d).isDigit = true := by
  interval_cases d <;> decide

theorem decReprAux_fuel (n : Nat) : ∀ f1 f2, n < f1 → n < f2 →
    decReprAux f1 n = decReprAux f2 n := by
  induction n using Nat.strong_induction_on with
  | _ n ih =>
    intro f1 f2 h1 h2
    rcases f1 with _ | f1
    · omega
    · rcases f2 with _ | f2
      · omega
      · show decReprAux (f1 + 1) n = decReprAux (f2 + 1) n
        simp only [decReprAux]
        by_cases h : n < 10
        · rw [if_pos h, if_pos h]
        · rw [if_neg h, if_neg h]
          have hdiv : n / 10 < n := Nat.div_lt_self (by omega) (by omega)
          rw [ih (n / 10) hdiv f1 f2 (by omega) (by omega)]

theorem decRepr_eq (n : Nat) : decRepr n =
    if n < 10 then [digitChar n] else decRepr (n / 10) ++ [digitChar (n % 10)] := by
  show decReprAux (n + 1) n = _
  simp only [decReprAux]
  by_cases h : n < 10
  · rw [if_pos h, if_pos h]
  · rw [if_neg h, if_neg h]
    have hdiv : n / 10 < n := Nat.div_lt_self (by omega) (by omega)
    rw [decReprAux_fuel (n / 10) n (n / 10 + 1) (by omega) (by omega)]
    rfl

theorem decRepr_all_digits (n : Nat) : ∀ ch ∈ decRepr n, ch.isDigit = true := by
  induction n using Nat.strong_induction_on with
  | _ n ih =>
    rw [decRepr_eq]
    by_cases h : n < 10
    · rw [if_pos h]
      intro ch hch
      rw [List.mem_singleton] at hch
      exact hch ▸ digitChar_isDigit n h
    · rw [if_neg h]
      intro ch hch
      rcases List.mem_append.mp hch with h1 | h2
      · exact ih (n / 10) (Nat.div_lt_self (by omega) (by omega)) ch h1
      · rw [List.mem_singleton] at h2
        exact h2 ▸ digitChar_isDigit (n % 10) (Nat.mod_lt n (by omega))

theorem decRepr_ne_nil (n : Nat) : decRepr n ≠ [] := by
  rw [decRepr_eq]
  by_cases h : n < 10
  · rw [if_pos h]
    simp
  · rw [if_neg h]
    simp

theorem digitsVal_append_singleton (a : JsStr) (c : Char) :
    digitsVal (a ++ [c]) = 10 * digitsVal a + (c.toNat - 48) := by
  unfold digitsVal
  rw [List.foldl_append]
  rfl

theorem digitsVal_decRepr (n : Nat) : digitsVal (decRepr n) = n := by
  induction n using Nat.strong_induction_on with
  | _ n ih =>
    rw [decRepr_eq]
    by_cases h : n < 10
    · rw [if_pos h]
      show digitsVal [digitChar n] = n
      unfold digitsVal
      simp [digitChar_toNat n h]
    · rw [if_neg h, digitsVal_append_singleton,
        ih (n / 10) (Nat.div_lt_self (by omega) (by omega)),
        digitChar_toNat (n % 10) (Nat.mod_lt n (by omega))]
      omega

theorem takeWhile_all {p : Char → Bool} (l : JsStr) (h : ∀ c ∈ l, p c = true) :
    l.takeWhile p = l := by
  induction l with
  | nil => rfl
  | cons c rest ih =>
    rw [List.takeWhile_cons, if_pos (h c (List.mem_cons_self c rest)),
      ih (fun d hd => h d (List.mem_cons_of_mem c hd))]

theorem parseDecDigits_decRepr (n : Nat) : parseDecDigits (decRepr n) = some n := by
  unfold parseDecDigits
  rw [takeWhile_all (decRepr n) (decRepr_all_digits n)]
  rw [if_neg (decRepr_ne_nil n), digitsVal_decRepr]

/-- A digit character differs from any non-digit character. -/
theorem ne_of_isDigit (c a : Char) (h : c.isDigit = true) (ha : ¬ a.isDigit = true) : c ≠ a :=
  fun e => ha (e ▸ h)

theorem isJsWs_eq_false_of_digit (c : Char) (h : c.isDigit = true) : isJsWs c = false := by
  have h1 : c ≠ ' ' := ne_of_isDigit c ' ' h (by decide)
  have h2 : c ≠ '\t' := ne_of_isDigit c '\t' h (by decide)
  have h3 : c ≠ '\n' := ne_of_isDigit c '\n' h (by decide)
  have h4 : c ≠ '\r' := ne_of_isDigit c '\r' h (by decide)
  unfold isJsWs
  simp [h1, h2, h3, h4]

end Js

namespace Js

theorem parseUnsigned_decRepr (n : Nat) : parseUnsigned (decRepr n) = some n := by
  have hd := parseDecDigits_decRepr n
  have hall := decRepr_all_digits n
  rcases h : decRepr n with _ | ⟨c, rest0⟩
  · exact absurd h (decRepr_ne_nil n)
  · rcases rest0 with _ | ⟨x, rest⟩
    · rw [h] at hd
      exact hd
    · rw [h] at hd hall
      have hx : x.isDigit = true := hall x (by simp)
      have hxx : ¬ (c = '0' ∧ (x = 'x' ∨ x = 'X')) := by
        rintro ⟨-, hor⟩
        rcases hor with e | e
        · exact ne_of_isDigit x 'x' hx (by decide) e
        · exact ne_of_isDigit x 'X' hx (by decide) e
      show parseUnsigned (c :: x :: rest) = some n
      simp only [parseUnsigned]
      rw [if_neg hxx]
      exact hd

theorem dropWhile_ws_of_digit (c : Char) (t : JsStr) (h : c.isDigit = true) :
    (c :: t).dropWhile isJsWs = c :: t := by
  rw [List.dropWhile_cons, isJsWs_eq_false_of_digit c h]
  simp

theorem jsParseInt_decRepr (n : Nat) : jsParseInt (decRepr n) = some (n : Int) := by
  have hall := decRepr_all_digits n
  rcases h : decRepr n with _ | ⟨c, rest⟩
  · exact absurd h (decRepr_ne_nil n)
  · have hc : c.isDigit = true := by
      rw [h] at hall
      exact hall c (by simp)
    have hpu : parseUnsigned (c :: rest) = some n := by
      rw [← h]
      exact parseUnsigned_decRepr n
    show jsParseInt (c :: rest) = some (n : Int)
    unfold jsParseInt
    rw [dropWhile_ws_of_digit c rest hc]
    simp only [jsParseIntTrimmed]
    rw [if_neg (ne_of_isDigit c '-' hc (by decide)),
      if_neg (ne_of_isDigit c '+' hc (by decide)), hpu]
    rfl

theorem jsParseInt_numToStr (v : JsNum) : jsParseInt (numToStr v) = v := by
  rcases v with _ | i
  · decide
  · simp only [numToStr]
    by_cases h : i < 0
    · rw [if_pos h]
      have hall := decRepr_all_digits i.natAbs
      rcases hr : decRepr i.natAbs with _ | ⟨c, rest⟩
      · exact absurd hr (decRepr_ne_nil _)
      · have hc : c.isDigit = true := by
          rw [hr] at hall
          exact hall c (by simp)
        have hpu : parseUnsigned (c :: rest) = some i.natAbs := by
          rw [← hr]
          exact parseUnsigned_decRepr _
        show jsParseInt ('-' :: c :: rest) = some i
        unfold jsParseInt
        have hws : ('-' :: c :: rest).dropWhile isJsWs = '-' :: c :: rest := by
          rw [List.dropWhile_cons, show isJsWs '-' = false from by decide]
          simp
        rw [hws,
          show jsParseIntTrimmed ('-' :: c :: rest)
              = (parseUnsigned (c :: rest)).map (fun n => -(n : Int)) from rfl,
          hpu]
        show some (-(i.natAbs : Int)) = some i
        congr 1
        omega
    · rw [if_neg h]
      rw [jsParseInt_decRepr]
      congr 1
      omega

theorem numToStr_chars (v : JsNum) :
    ∀ c ∈ numToStr v, c.isDigit = true ∨ c = '-' ∨ c = 'N' ∨ c = 'a' := by
  rcases v with _ | i
  · intro c hc
    have h3 : c = 'N' ∨ c = 'a' ∨ c = 'N' := by simpa [numToStr] using hc
    rcases h3 with rfl | rfl | rfl
    · exact Or.inr (Or.inr (Or.inl rfl))
    · exact Or.inr (Or.inr (Or.inr rfl))
    · exact Or.inr (Or.inr (Or.inl rfl))
  · intro c hc
    simp only [numToStr] at hc
    by_cases h : i < 0
    · rw [if_pos h] at hc
      rw [List.mem_cons] at hc
      rcases hc with rfl | hc2
      · exact Or.inr (Or.inl rfl)
      · exact Or.inl (decRepr_all_digits i.natAbs c hc2)
    · rw [if_neg h] at hc
      exact Or.inl (decRepr_all_digits i.natAbs c hc)

theorem colon_not_mem_numToStr (v : JsNum) : ':' ∉ numToStr v := by
  intro hm
  rcases numToStr_chars v ':' hm with h | h | h | h
  · exact absurd h (by decide)
  all_goals cases h

theorem slash_not_mem_numToStr (v : JsNum) : '/' ∉ numToStr v := by
  intro hm
  rcases numToStr_chars v '/' hm with h | h | h | h
  · exact absurd h (by decide)
  all_goals cases h

theorem dash_not_mem_numToStr_nonneg (i : Int) (h : 0 ≤ i) : '-' ∉ numToStr (some i) := by
  intro hm
  simp only [numToStr] at hm
  rw [if_neg (by omega)] at hm
  have := decRepr_all_digits i.natAbs '-' hm
  exact absurd this (by decide)

theorem numToStr_ne_nil (v : JsNum) : numToStr v ≠ [] := by
  rcases v with _ | i
  · decide
  · simp only [numToStr]
    by_cases h : i < 0
    · rw [if_pos h]
      simp
    · rw [if_neg h]
      exact decRepr_ne_nil _

end Js

namespace Js

theorem map_intCast_nonneg (x : Option Nat) (n : Int)
    (hx : x.map (fun m => (m : Int)) = some n) : 0 ≤ n := by
  rcases x with _ | m
  · cases hx
  · have h1 : ((m : Int)) = n := Option.some.inj hx
    omega

theorem jsParseInt_nonneg (s : JsStr) (h : '-' ∉ s) (n : Int)
    (hn : jsParseInt s = some n) : 0 ≤ n := by
  unfold jsParseInt at hn
  have hsub : '-' ∉ s.dropWhile isJsWs := fun m => h ((List.dropWhile_sublist isJsWs).subset m)
  rcases hd : s.dropWhile isJsWs with _ | ⟨c, rest⟩ <;> rw [hd] at hn hsub
  · simp only [jsParseIntTrimmed] at hn
    exact map_intCast_nonneg _ n hn
  · have hc : ¬ c = '-' := fun e => hsub (e ▸ List.mem_cons_self c rest)
    simp only [jsParseIntTrimmed] at hn
    rw [if_neg hc] at hn
    by_cases hp : c = '+'
    · rw [if_pos hp] at hn
      exact map_intCast_nonneg _ n hn
    · rw [if_neg hp] at hn
      exact map_intCast_nonneg _ n hn

theorem jsSubstring_zero_take (s : JsStr) (n : Nat) (hn : n ≤ s.length) :
    jsSubstring s 0 (n : Int) = s.take n := by
  have hx : clampIdx 0 s.length = 0 := by
    unfold clampIdx
    simp
  have hy : clampIdx (n : Int) s.length = n := by
    unfold clampIdx
    rw [if_neg (by omega)]
    simp [hn]
  unfold jsSubstring
  rw [hx, hy]
  simp

theorem sep_not_mem_jsSplit (sep : Char) (s : JsStr) : ∀ p ∈ jsSplit sep s, sep ∉ p := by
  induction s with
  | nil =>
    intro p hp
    rw [show jsSplit sep [] = [[]] from rfl, List.mem_singleton] at hp
    subst hp
    exact List.not_mem_nil sep
  | cons c rest ih =>
    intro p hp
    by_cases hc : c = sep
    · rw [show jsSplit sep (c :: rest) = if c = sep then [] :: jsSplit sep rest
          else match jsSplit sep rest with
            | [] => [[c]]
            | t :: ts => (c :: t) :: ts from rfl, if_pos hc, List.mem_cons] at hp
      rcases hp with rfl | hp2
      · exact List.not_mem_nil sep
      · exact ih p hp2
    · rcases hsp : jsSplit sep rest with _ | ⟨t, ts⟩
      · exact absurd hsp (jsSplit_ne_nil sep rest)
      · rw [show jsSplit sep (c :: rest) = if c = sep then [] :: jsSplit sep rest
            else match jsSplit sep rest with
              | [] => [[c]]
              | t :: ts => (c :: t) :: ts from rfl, if_neg hc, hsp, List.mem_cons] at hp
        rcases hp with rfl | hp2
        · intro hm
          rw [List.mem_cons] at hm
          rcases hm with e | hm2
          · exact hc e.symm
          · exact ih t (hsp ▸ List.mem_cons_self t ts) hm2
        · exact ih p (hsp ▸ List.mem_cons_of_mem t hp2)

end Js

namespace PortModel

open Js

theorem jsParseInt_good (p : JsStr) (h : '-' ∉ p) : goodNum (jsParseInt p) :=
  fun i hi => jsParseInt_nonneg p h i hi

theorem contains_eq_mem (t : JsStr) (c : Char) : t.contains c = true ↔ c ∈ t := by
  simp [List.contains]

theorem parsePortOrRange_good (t : JsStr) : goodPort (parsePortOrRange t) := by
  unfold parsePortOrRange
  by_cases hd : t.contains '-'
  · rw [if_pos hd]
    unfold rangeOfToken
    refine ⟨?_, ?_⟩
    · have hne := jsSplit_ne_nil '-' t
      rcases hsp : jsSplit '-' t with _ | ⟨p0, ps⟩
      · exact absurd hsp hne
      · simp only [List.headD_cons]
        exact jsParseInt_good p0 (sep_not_mem_jsSplit '-' t p0 (hsp ▸ List.mem_cons_self p0 ps))
    · show goodNum (jsParseInt (((jsSplit '-' t).get? 1).getD []))
      rcases hg : (jsSplit '-' t).get? 1 with _ | p1
      · exact jsParseInt_good [] (List.not_mem_nil '-')
      · exact jsParseInt_good p1 (sep_not_mem_jsSplit '-' t p1 (List.get?_mem hg))
  · rw [if_neg hd]
    refine jsParseInt_good t ?_
    intro hm
    exact hd ((contains_eq_mem t '-').mpr hm)

theorem dash_not_mem_good (v : JsNum) (hv : goodNum v) : '-' ∉ numToStr v := by
  rcases v with _ | i
  · decide
  · exact dash_not_mem_numToStr_nonneg i (hv i rfl)

theorem parsePortOrRange_tokStr (v : PortOrRange) (hv : goodPort v) :
    parsePortOrRange (tokStr v) = v := by
  rcases v with w | ⟨a, b⟩
  · show parsePortOrRange (numToStr w) = .port w
    unfold parsePortOrRange
    rw [if_neg ?hna]
    case hna =>
      intro hc
      exact dash_not_mem_good w hv ((contains_eq_mem _ '-').mp hc)
    rw [jsParseInt_numToStr]
  · rcases hv with ⟨ha, hb⟩
    show parsePortOrRange (numToStr a ++ '-' :: numToStr b) = .range a b
    unfold parsePortOrRange
    rw [if_pos ?hdm]
    case hdm =>
      refine (contains_eq_mem _ '-').mpr ?_
      exact List.mem_append.mpr (Or.inr (List.mem_cons_self '-' (numToStr b)))
    unfold rangeOfToken
    rw [jsSplit_append '-' (numToStr a) (numToStr b),
      jsSplit_no_sep '-' (numToStr a) (dash_not_mem_good a ha),
      jsSplit_no_sep '-' (numToStr b) (dash_not_mem_good b hb)]
    show PortOrRange.range (jsParseInt (numToStr a)) (jsParseInt (numToStr b)) = .range a b
    rw [jsParseInt_numToStr, jsParseInt_numToStr]

theorem parsePort_good (ptype : PortType) (entry : JsStr) : goodPort (parsePort ptype entry) := by
  unfold parsePort
  by_cases h1 : (jsSplit ':' entry).length = 1
  · rw [if_pos h1]
    exact parsePortOrRange_good _
  · rw [if_neg h1]
    by_cases h2 : ptype = .HOST
    · rw [if_pos h2]
      exact parsePortOrRange_good _
    · rw [if_neg h2]
      exact parsePortOrRange_good _

theorem tokStr_ne_nil (v : PortOrRange) : tokStr v ≠ [] := by
  rcases v with w | ⟨a, b⟩
  · exact numToStr_ne_nil w
  · show numToStr a ++ '-' :: numToStr b ≠ []
    simp

theorem colon_not_mem_tokStr (v : PortOrRange) : ':' ∉ tokStr v := by
  rcases v with w | ⟨a, b⟩
  · exact colon_not_mem_numToStr w
  · show ':' ∉ numToStr a ++ '-' :: numToStr b
    intro hm
    rcases List.mem_append.mp hm with h1 | h2
    · exact colon_not_mem_numToStr a h1
    · rw [List.mem_cons] at h2
      rcases h2 with e | h3
      · cases e
      · exact colon_not_mem_numToStr b h3

theorem slash_not_mem_tokStr (v : PortOrRange) : '/' ∉ tokStr v := by
  rcases v with w | ⟨a, b⟩
  · exact slash_not_mem_numToStr w
  · show '/' ∉ numToStr a ++ '-' :: numToStr b
    intro hm
    rcases List.mem_append.mp hm with h1 | h2
    · exact slash_not_mem_numToStr a h1
    · rw [List.mem_cons] at h2
      rcases h2 with e | h3
      · cases e
      · exact slash_not_mem_numToStr b h3

end PortModel

namespace PortModel

open Js

theorem isIPv4_chars (s : JsStr) (h : isIPv4 s = true) :
    ∀ c ∈ s, c.isDigit = true ∨ c = '.' := by
  intro c hc
  rcases mem_of_mem_jsSplit '.' s c hc with e | ⟨p, hp, hcp⟩
  · exact Or.inr e
  · left
    unfold isIPv4 at h
    simp only [Bool.and_eq_true, List.all_eq_true, decide_eq_true_eq] at h
    have hx := h.2 p hp
    simp only [Bool.and_eq_true, List.all_eq_true, decide_eq_true_eq] at hx
    exact hx.2.1 c hcp

theorem isIPv6_chars (s : JsStr) (h : isIPv6 s = true) :
    ∀ c ∈ s, isHexDigitChar c = true ∨ c = ':' := by
  intro c hc
  rcases mem_of_mem_jsSplit ':' s c hc with e | ⟨p, hp, hcp⟩
  · exact Or.inr e
  · left
    unfold isIPv6 at h
    simp only [Bool.and_eq_true, List.all_eq_true, decide_eq_true_eq] at h
    have hx := h.1 p hp
    simp only [Bool.and_eq_true, List.all_eq_true, decide_eq_true_eq] at hx
    exact hx.2 c hcp

theorem validIP_no_slash (s : JsStr) (h : isIPv4 s = true ∨ isIPv6 s = true) : '/' ∉ s := by
  intro hm
  rcases h with h4 | h6
  · rcases isIPv4_chars s h4 '/' hm with hd | hd
    · exact absurd hd (by decide)
    · cases hd
  · rcases isIPv6_chars s h6 '/' hm with hd | hd
    · exact absurd hd (by decide)
    · cases hd

theorem validIP_no_bracket (s : JsStr) (h : isIPv4 s = true ∨ isIPv6 s = true) : '[' ∉ s := by
  intro hm
  rcases h with h4 | h6
  · rcases isIPv4_chars s h4 '[' hm with hd | hd
    · exact absurd hd (by decide)
    · cases hd
  · rcases isIPv6_chars s h6 '[' hm with hd | hd
    · exact absurd hd (by decide)
    · cases hd

theorem checkValidIP_ok (x entry ip : JsStr) (h : checkValidIP x entry = .ok ip) :
    ip = x ∧ (isIPv4 x = true ∨ isIPv6 x = true) := by
  unfold checkValidIP at h
  by_cases hv : ¬ isIPv4 x = true ∧ ¬ isIPv6 x = true
  · rw [if_pos hv] at h
    cases h
  · rw [if_neg hv] at h
    refine ⟨(Except.ok.inj h).symm, ?_⟩
    by_cases h4 : isIPv4 x = true
    · exact Or.inl h4
    · refine Or.inr ?_
      by_cases h6 : isIPv6 x = true
      · exact h6
      · exact absurd ⟨h4, h6⟩ hv

theorem parseIP_valid (s ip : JsStr) (h : parseIP s = .ok ip) :
    isIPv4 ip = true ∨ isIPv6 ip = true := by
  unfold parseIP at h
  by_cases hl : (jsSplit ':' s).length < 3
  · rw [if_pos hl] at h
    have : defaultHostIP = ip := Except.ok.inj h
    subst this
    left
    decide
  · rw [if_neg hl] at h
    set lp0 := ((jsSplit ':' s).get? ((jsSplit ':' s).length - 2)).getD [] with hlp0
    set lastPort := if lp0.length = 0 then (jsSplit ':' s).getLast?.getD [] else lp0 with hlast
    set colonNum : Int := if lp0.length = 0 then 2 else 1 with hcn
    set rawIP := jsSubstring s 0 (jsIndexOf lastPort s - colonNum) with hraw
    by_cases hb : rawIP.head? ≠ some '['
    · rw [if_pos hb] at h
      rcases checkValidIP_ok _ _ _ h with ⟨rfl, hv⟩
      exact hv
    · rw [if_neg hb] at h
      rcases checkValidIP_ok _ _ _ h with ⟨rfl, hv⟩
      exact hv

theorem parseEntry_fields (s : JsStr) (e : ComposePortEntry) (h : parseEntry s = .ok e) :
    parseIP s = .ok e.hostIP ∧ e.host = parsePort .HOST s ∧
      e.container = parsePort .CONTAINER s ∧ parseProtocol s = .ok e.protocol := by
  unfold parseEntry at h
  rcases hip : parseIP s with msg | ip <;> rw [hip] at h
  · cases h
  · rcases hp : parseProtocol s with msg | p <;> rw [hp] at h
    · cases h
    · have he := Except.ok.inj h
      subst he
      exact ⟨rfl, rfl, rfl, rfl⟩

end PortModel

namespace PortModel

open Js

theorem colon_not_mem_protoStr (p : PortEntryProtocol) : ':' ∉ protoStr p := by
  cases p <;> decide

theorem slash_not_mem_protoStr (p : PortEntryProtocol) : '/' ∉ protoStr p := by
  cases p <;> decide

theorem head?_ne_of_not_mem (l : JsStr) (c : Char) (h : c ∉ l) : l.head? ≠ some c := by
  cases l with
  | nil => simp
  | cons d t =>
    intro e
    have : d = c := Option.some.inj e
    exact h (this ▸ List.mem_cons_self d t)

theorem getLast?_append_pair {α : Type} (A : List α) (x y : α) :
    (A ++ [x, y]).getLast? = some y := by
  rw [show A ++ [x, y] = (A ++ [x]) ++ [y] by simp, List.getLast?_concat]

theorem get?_append_pair {α : Type} (A : List α) (x y : α) :
    (A ++ [x, y]).get? A.length = some x := by
  rw [List.get?_append_right (le_refl A.length)]
  simp

theorem colon_not_mem_container_chunk (c : PortOrRange) (p : PortEntryProtocol) :
    ':' ∉ tokStr c ++ '/' :: protoStr p := by
  intro hm
  rcases List.mem_append.mp hm with h1 | h2
  · exact colon_not_mem_tokStr c h1
  · rw [List.mem_cons] at h2
    rcases h2 with e | h3
    · cases e
    · exact colon_not_mem_protoStr p h3

theorem entryStr_split_colon (ip : JsStr) (h c : PortOrRange) (p : PortEntryProtocol) :
    jsSplit ':' (entryStr ⟨ip, h, c, p⟩)
      = jsSplit ':' ip ++ [tokStr h, tokStr c ++ '/' :: protoStr p] := by
  simp only [entryStr, List.cons_append, List.append_assoc]
  rw [jsSplit_append, jsSplit_append,
    jsSplit_no_sep ':' (tokStr h) (colon_not_mem_tokStr h),
    jsSplit_no_sep ':' (tokStr c ++ '/' :: protoStr p) (colon_not_mem_container_chunk c p)]
  rfl

theorem entryStr_split_slash (ip : JsStr) (h c : PortOrRange) (p : PortEntryProtocol)
    (hip : '/' ∉ ip) :
    jsSplit '/' (entryStr ⟨ip, h, c, p⟩)
      = [ip ++ ':' :: (tokStr h ++ ':' :: tokStr c), protoStr p] := by
  have hassoc : entryStr ⟨ip, h, c, p⟩
      = (ip ++ ':' :: (tokStr h ++ ':' :: tokStr c)) ++ '/' :: protoStr p := by
    simp [entryStr]
  rw [hassoc, jsSplit_append]
  have hpre : '/' ∉ ip ++ ':' :: (tokStr h ++ ':' :: tokStr c) := by
    intro hm
    rcases List.mem_append.mp hm with h1 | h2
    · exact hip h1
    · rw [List.mem_cons] at h2
      rcases h2 with e | h3
      · cases e
      · rcases List.mem_append.mp h3 with h4 | h5
        · exact slash_not_mem_tokStr h h4
        · rw [List.mem_cons] at h5
          rcases h5 with e2 | h6
          · cases e2
          · exact slash_not_mem_tokStr c h6
  rw [jsSplit_no_sep '/' _ hpre, jsSplit_no_sep '/' _ (slash_not_mem_protoStr p)]
  rfl

theorem parseProtocol_entryStr (ip : JsStr) (h c : PortOrRange) (p : PortEntryProtocol)
    (hip : '/' ∉ ip) :
    parseProtocol (entryStr ⟨ip, h, c, p⟩) = .ok p := by
  unfold parseProtocol
  rw [entryStr_split_slash ip h c p hip]
  cases p <;> rfl

theorem parsePort_entryStr (ptype : PortType) (ip : JsStr) (h c : PortOrRange)
    (p : PortEntryProtocol) (hh : goodPort h) (hc : goodPort c) :
    parsePort ptype (entryStr ⟨ip, h, c, p⟩) = (if ptype = .HOST then h else c) := by
  unfold parsePort
  rw [entryStr_split_colon ip h c p]
  dsimp only
  have hlen : (jsSplit ':' ip ++ [tokStr h, tokStr c ++ '/' :: protoStr p]).length
      = (jsSplit ':' ip).length + 2 := by
    simp
  have hlen1 : (jsSplit ':' ip).length ≥ 1 := by
    rcases hq : jsSplit ':' ip with _ | ⟨a, as⟩
    · exact absurd hq (jsSplit_ne_nil ':' ip)
    · simp
  have hguest : (jsSplit '/'
      (((jsSplit ':' ip ++ [tokStr h, tokStr c ++ '/' :: protoStr p]).getLast?).getD [])).headD []
      = tokStr c := by
    rw [getLast?_append_pair]
    show (jsSplit '/' (tokStr c ++ '/' :: protoStr p)).headD [] = tokStr c
    rw [jsSplit_append, jsSplit_no_sep '/' (tokStr c) (slash_not_mem_tokStr c)]
    rfl
  rw [hguest, hlen]
  rw [if_neg (by omega)]
  by_cases hp : ptype = .HOST
  · rw [if_pos hp, if_pos hp]
    have hidx2 : (jsSplit ':' ip).length + 2 - 2 = (jsSplit ':' ip).length := by omega
    rw [hidx2, get?_append_pair]
    show parsePortOrRange (tokStr h) = h
    exact parsePortOrRange_tokStr h hh
  · rw [if_neg hp, if_neg hp]
    exact parsePortOrRange_tokStr c hc

end PortModel

namespace PortModel

open Js

theorem checkValidIP_of_valid (ip entry : JsStr) (hv : isIPv4 ip = true ∨ isIPv6 ip = true) :
    checkValidIP ip entry = .ok ip := by
  unfold checkValidIP
  rw [if_neg]
  rintro ⟨h4, h6⟩
  rcases hv with h | h
  · exact h4 h
  · exact h6 h

theorem entryStr_decomp (ip : JsStr) (h c : PortOrRange) (p : PortEntryProtocol) :
    entryStr ⟨ip, h, c, p⟩ = ip ++ (':' :: (tokStr h ++ ':' :: (tokStr c ++ '/' :: protoStr p))) := by
  simp [entryStr]

theorem parseIP_entryStr (ip : JsStr) (h c : PortOrRange) (p : PortEntryProtocol)
    (hv : isIPv4 ip = true ∨ isIPv6 ip = true)
    (hidx : jsIndexOf (tokStr h) (entryStr ⟨ip, h, c, p⟩) = (ip.length : Int) + 1) :
    parseIP (entryStr ⟨ip, h, c, p⟩) = .ok ip := by
  unfold parseIP
  rw [entryStr_split_colon ip h c p]
  dsimp only
  have hlen : (jsSplit ':' ip ++ [tokStr h, tokStr c ++ '/' :: protoStr p]).length
      = (jsSplit ':' ip).length + 2 := by
    simp
  have hlen1 : (jsSplit ':' ip).length ≥ 1 := by
    rcases hq : jsSplit ':' ip with _ | ⟨a, as⟩
    · exact absurd hq (jsSplit_ne_nil ':' ip)
    · simp
  rw [hlen, if_neg (by omega)]
  have hsub : (jsSplit ':' ip).length + 2 - 2 = (jsSplit ':' ip).length := by omega
  rw [hsub, get?_append_pair]
  have hgd : (some (tokStr h)).getD ([] : JsStr) = tokStr h := rfl
  rw [hgd]
  have hne0 : ¬ (tokStr h).length = 0 := fun hzero =>
    tokStr_ne_nil h (List.eq_nil_of_length_eq_zero hzero)
  simp only [if_neg hne0]
  rw [hidx]
  have harith : ((ip.length : Int) + 1) - 1 = ((ip.length : Int)) := by ring
  rw [harith]
  have hiplen : ip.length ≤ (entryStr ⟨ip, h, c, p⟩).length := by
    rw [entryStr_decomp]
    simp
  rw [jsSubstring_zero_take _ _ hiplen]
  have htake : (entryStr ⟨ip, h, c, p⟩).take ip.length = ip := by
    rw [entryStr_decomp]
    exact List.take_left ip _
  rw [htake]
  rw [if_pos (head?_ne_of_not_mem ip '[' (validIP_no_bracket ip hv))]
  exact checkValidIP_of_valid ip _ hv

/-- Re-parsing the serialized four-part form of a parsed entry recovers
the entry, provided the first occurrence of the serialized host token in
the serialized string is its canonical position, directly after the bind
address and its separating colon. -/
theorem parseEntry_reparse (e : ComposePortEntry)
    (hv : isIPv4 e.hostIP = true ∨ isIPv6 e.hostIP = true)
    (hh : goodPort e.host) (hc : goodPort e.container)
    (hidx : jsIndexOf (tokStr e.host) (entryStr e) = (e.hostIP.length : Int) + 1) :
    parseEntry (entryStr e) = .ok e := by
  obtain ⟨ip, h, c, p⟩ := e
  unfold parseEntry
  rw [parseIP_entryStr ip h c p hv hidx,
    parseProtocol_entryStr ip h c p (validIP_no_slash ip hv),
    parsePort_entryStr .HOST ip h c p hh hc,
    parsePort_entryStr .CONTAINER ip h c p hh hc]
  rfl

end PortModel

/-- C1 counterexample: the string 0:80 is accepted by the parser (host
port 0, container port 80, default address and protocol), but its
serialized four-part form 0.0.0.0:0:80/tcp is rejected when parsed again:
the address extractor locates the host token 0 at its first occurrence,
which is inside the serialized default address, and the truncated address
fails validation.  This refutes the claim that the serialized string is
always accepted again. -/
theorem C1_roundtrip_counterexample :
    PortModel.parseEntry (String.toList "0:80")
      = Except.ok ⟨String.toList "0.0.0.0", .port (some 0), .port (some 80), .tcp⟩ ∧
    (PortModel.parseEntry (PortModel.entryStr
      ⟨String.toList "0.0.0.0", .port (some 0), .port (some 80), .tcp⟩)).isOk = false :=
  ⟨rfl, rfl⟩

/-- C1 (amended): for every string accepted by the ComposePortEntry
parser, serializing the parsed value yields the fully qualified four-part
form, and whenever the first occurrence of the serialized host token in
the serialized string is its canonical position (directly after the bind
address and its colon), the serialized string is again accepted and the
second parse is deep-equal to the first (the equality of the embedded
values, under which NaN equals NaN, models deep equality).  The side
condition fails exactly in cases like host port 0 under the default
address 0.0.0.0, per the counterexample. -/
theorem C1_roundtrip_amended (s : Js.JsStr) (e : PortModel.ComposePortEntry)
    (hp : PortModel.parseEntry s = Except.ok e)
    (hidx : Js.jsIndexOf (PortModel.tokStr e.host) (PortModel.entryStr e)
        = (e.hostIP.length : Int) + 1) :
    PortModel.parseEntry (PortModel.entryStr e) = Except.ok e := by
  rcases PortModel.parseEntry_fields s e hp with ⟨hip, hh, hc, hproto⟩
  refine PortModel.parseEntry_reparse e (PortModel.parseIP_valid s e.hostIP hip) ?_ ?_ hidx
  · rw [hh]
    exact PortModel.parsePort_good .HOST s
  · rw [hc]
    exact PortModel.parsePort_good .CONTAINER s

/-- C1 witness: the amended round trip evaluated at the concrete accepted
entry 8080:80/udp, whose serialization is 0.0.0.0:8080:80/udp. -/
theorem C1_roundtrip_amended_witness :
    PortModel.parseEntry (PortModel.entryStr
      ⟨String.toList "0.0.0.0", .port (some 8080), .port (some 80), .udp⟩)
      = Except.ok ⟨String.toList "0.0.0.0", .port (some 8080), .port (some 80), .udp⟩ :=
  C1_roundtrip_amended (String.toList "8080:80/udp")
    ⟨String.toList "0.0.0.0", .port (some 8080), .port (some 80), .udp⟩
    (by rfl) (by rfl)

/-- C9 counterexample: the entry 80:80/ carries a protocol suffix that is
the empty token, which is neither tcp nor udp, yet parsing does not raise:
the empty suffix is falsy in JavaScript, so parseProtocol coerces it to
the default tcp and the whole entry parses successfully.  This refutes
the claim that every suffix token other than tcp and udp raises a parse
error. -/
theorem C9_protocol_counterexample :
    (Js.jsSplit '/' (String.toList "80:80/")).get? 1 = some [] ∧
    PortModel.parseProtocol (String.toList "80:80/")
      = Except.ok PortModel.PortEntryProtocol.tcp ∧
    PortModel.parseEntry (String.toList "80:80/")
      = Except.ok ⟨String.toList "0.0.0.0", .port (some 80), .port (some 80), .tcp⟩ :=
  ⟨rfl, rfl, rfl⟩

/-- C9 (amended): for an entry containing exactly one protocol delimiter,
an empty suffix token is treated like an absent one and defaults to tcp;
the tokens tcp and udp map to themselves; every other (nonempty) suffix
token raises a parse error and is never coerced; and an entry with no
delimiter at all parses with protocol tcp. -/
theorem C9_parseProtocol_amended (pre suf : Js.JsStr) (hpre : '/' ∉ pre) (hsuf : '/' ∉ suf) :
    (suf = [] →
      PortModel.parseProtocol (pre ++ '/' :: suf) = Except.ok PortModel.PortEntryProtocol.tcp) ∧
    (suf = String.toList "tcp" →
      PortModel.parseProtocol (pre ++ '/' :: suf) = Except.ok PortModel.PortEntryProtocol.tcp) ∧
    (suf = String.toList "udp" →
      PortModel.parseProtocol (pre ++ '/' :: suf) = Except.ok PortModel.PortEntryProtocol.udp) ∧
    (suf ≠ [] → suf ≠ String.toList "tcp" → suf ≠ String.toList "udp" →
      ∃ m, PortModel.parseProtocol (pre ++ '/' :: suf) = Except.error m) ∧
    (∀ t : Js.JsStr, '/' ∉ t →
      PortModel.parseProtocol t = Except.ok PortModel.PortEntryProtocol.tcp) := by
  have hs : Js.jsSplit '/' (pre ++ '/' :: suf) = [pre, suf] := by
    rw [Js.jsSplit_append, Js.jsSplit_no_sep '/' pre hpre, Js.jsSplit_no_sep '/' suf hsuf]
    rfl
  have hbody : PortModel.parseProtocol (pre ++ '/' :: suf)
      = (if suf = [] then Except.ok PortModel.PortEntryProtocol.tcp
         else if suf = PortModel.protoStr .tcp then Except.ok PortModel.PortEntryProtocol.tcp
         else if suf = PortModel.protoStr .udp then Except.ok PortModel.PortEntryProtocol.udp
         else Except.error "Protocol is not supported by the compose spec.") := by
    unfold PortModel.parseProtocol
    rw [hs]
    rfl
  refine ⟨?_, ?_, ?_, ?_, ?_⟩
  · intro he
    rw [hbody, if_pos he]
  · intro he
    rw [hbody, if_neg (by rw [he]; decide), if_pos (by rw [he]; rfl)]
  · intro he
    rw [hbody, if_neg (by rw [he]; decide), if_neg (by rw [he]; decide),
      if_pos (by rw [he]; rfl)]
  · intro h1 h2 h3
    refine ⟨"Protocol is not supported by the compose spec.", ?_⟩
    rw [hbody, if_neg h1,
      if_neg (fun e => h2 (e.trans (show PortModel.protoStr .tcp = String.toList "tcp" from rfl))),
      if_neg (fun e => h3 (e.trans (show PortModel.protoStr .udp = String.toList "udp" from rfl)))]
  · intro t ht
    unfold PortModel.parseProtocol
    rw [Js.jsSplit_no_sep '/' t ht]
    rfl

/-- C9 witness: the amended statement evaluated at the entry 80:80/sctp
(raises) and at 80:80 (defaults to tcp). -/
theorem C9_parseProtocol_amended_witness :
    (∃ m, PortModel.parseProtocol (String.toList "80:80" ++ '/' :: String.toList "sctp")
      = Except.error m) ∧
    PortModel.parseProtocol (String.toList "80:80")
      = Except.ok PortModel.PortEntryProtocol.tcp := by
  have h := C9_parseProtocol_amended (String.toList "80:80") (String.toList "sctp")
    (by decide) (by decide)
  exact ⟨h.2.2.2.1 (by decide) (by decide) (by decide), h.2.2.2.2 (String.toList "80:80") (by decide)⟩

namespace PortManagerModel

open Js

theorem slash_not_mem_hostGuestStr (h g : JsNum) :
    '/' ∉ numToStr h ++ ':' :: numToStr g := by
  intro hm
  rcases List.mem_append.mp hm with h1 | h2
  · exact slash_not_mem_numToStr h h1
  · rw [List.mem_cons] at h2
    rcases h2 with e | h3
    · cases e
    · exact slash_not_mem_numToStr g h3

theorem fromPorts_none_fields (h g : JsNum) :
    (fromPorts h g none).hostPort = h ∧ (fromPorts h g none).guestPort = g ∧
      (fromPorts h g none).protocol = none := by
  have hsplit : jsSplit ':' (numToStr h ++ ':' :: numToStr g) = [numToStr h, numToStr g] := by
    rw [jsSplit_append, jsSplit_no_sep ':' (numToStr h) (colon_not_mem_numToStr h),
      jsSplit_no_sep ':' (numToStr g) (colon_not_mem_numToStr g)]
    rfl
  have hslash : jsSplit '/' (numToStr h ++ ':' :: numToStr g)
      = [numToStr h ++ ':' :: numToStr g] :=
    jsSplit_no_sep '/' _ (slash_not_mem_hostGuestStr h g)
  have hsh : jsSplit '/' (numToStr h) = [numToStr h] :=
    jsSplit_no_sep '/' _ (slash_not_mem_numToStr h)
  have hsg : jsSplit '/' (numToStr g) = [numToStr g] :=
    jsSplit_no_sep '/' _ (slash_not_mem_numToStr g)
  have hfp : fromPorts h g none = parse (numToStr h ++ ':' :: numToStr g) := by
    unfold fromPorts
    simp
  have hmap : (jsSplit ':' (numToStr h ++ ':' :: numToStr g)).map
      (fun x => (jsSplit '/' x).headD []) = [numToStr h, numToStr g] := by
    rw [hsplit]
    simp only [List.map_cons, List.map_nil, hsh, hsg, List.headD_cons]
  have hproto : parseProtocol (numToStr h ++ ':' :: numToStr g) = none := by
    unfold parseProtocol
    rw [hslash]
    rfl
  rw [hfp]
  unfold parse
  dsimp only
  rw [hmap, hproto]
  refine ⟨?_, ?_, rfl⟩
  · exact jsParseInt_numToStr h
  · exact jsParseInt_numToStr g

theorem mapGet_mapSet_self (m : Ports) (k : JsNum) (v : ComposePortEntry) :
    mapGet (mapSet m k v) k = some v := by
  induction m with
  | nil => simp [mapSet, mapGet]
  | cons kv rest ih =>
    rcases kv with ⟨k0, v0⟩
    unfold mapSet
    by_cases hk : k0 = k
    · rw [if_pos hk]
      unfold mapGet
      rw [if_pos hk]
    · rw [if_neg hk]
      unfold mapGet
      rw [if_neg hk]
      exact ih

theorem mem_mapSet (m : Ports) (k : JsNum) (v : ComposePortEntry)
    (kv : JsNum × ComposePortEntry) (hm : kv ∈ mapSet m k v) :
    kv ∈ m ∨ kv.2 = v := by
  induction m with
  | nil =>
    unfold mapSet at hm
    rw [List.mem_singleton] at hm
    exact Or.inr (by rw [hm])
  | cons kv0 rest ih =>
    rcases kv0 with ⟨k0, v0⟩
    unfold mapSet at hm
    by_cases hk : k0 = k
    · rw [if_pos hk, List.mem_cons] at hm
      rcases hm with rfl | hm2
      · exact Or.inr rfl
      · exact Or.inl (List.mem_cons_of_mem _ hm2)
    · rw [if_neg hk, List.mem_cons] at hm
      rcases hm with rfl | hm2
      · exact Or.inl (List.mem_cons_self _ _)
      · rcases ih hm2 with h1 | h2
        · exact Or.inl (List.mem_cons_of_mem _ h1)
        · exact Or.inr h2

theorem mem_mapSet_full (m : Ports) (k : JsNum) (v : ComposePortEntry)
    (kv : JsNum × ComposePortEntry) (hm : kv ∈ mapSet m k v) :
    kv ∈ m ∨ kv = (k, v) := by
  induction m with
  | nil =>
    unfold mapSet at hm
    rw [List.mem_singleton] at hm
    exact Or.inr hm
  | cons kv0 rest ih =>
    rcases kv0 with ⟨k0, v0⟩
    unfold mapSet at hm
    by_cases hk : k0 = k
    · rw [if_pos hk, List.mem_cons] at hm
      rcases hm with rfl | hm2
      · exact Or.inr (by rw [hk])
      · exact Or.inl (List.mem_cons_of_mem _ hm2)
    · rw [if_neg hk, List.mem_cons] at hm
      rcases hm with rfl | hm2
      · exact Or.inl (List.mem_cons_self _ _)
      · rcases ih hm2 with h1 | h2
        · exact Or.inl (List.mem_cons_of_mem _ h1)
        · exact Or.inr h2

theorem mapSet_fresh (m : Ports) (k : JsNum) (v : ComposePortEntry)
    (hfresh : ∀ kv ∈ m, kv.1 ≠ k) : mapSet m k v = m ++ [(k, v)] := by
  induction m with
  | nil => rfl
  | cons kv0 rest ih =>
    rcases kv0 with ⟨k0, v0⟩
    unfold mapSet
    rw [if_neg (hfresh (k0, v0) (List.mem_cons_self _ _))]
    rw [ih (fun kv hkv => hfresh kv (List.mem_cons_of_mem _ hkv))]
    rfl

theorem mapGet_append_fresh (m : Ports) (k : JsNum) (v : ComposePortEntry)
    (hfresh : ∀ kv ∈ m, kv.1 ≠ k) : mapGet (m ++ [(k, v)]) k = some v := by
  induction m with
  | nil => simp [mapGet]
  | cons kv0 rest ih =>
    rcases kv0 with ⟨k0, v0⟩
    show mapGet ((k0, v0) :: (rest ++ [(k, v)])) k = some v
    unfold mapGet
    rw [if_neg (hfresh (k0, v0) (List.mem_cons_self _ _))]
    exact ih (fun kv hkv => hfresh kv (List.mem_cons_of_mem _ hkv))

theorem setPortMapping_noProbe (openPort : JsNum → Bool) (protocol : PortEntryProtocol)
    (guestPort hostPort : JsNum) (pm : PortManager) :
    setPortMapping openPort false protocol guestPort hostPort pm
      = .ok ⟨mapSet pm.ports guestPort (fromPorts hostPort guestPort protocol)⟩ := by
  unfold setPortMapping
  rw [if_neg (by simp)]

theorem setPortMapping_ok_shape (openPort : JsNum → Bool) (cfg : Bool)
    (protocol : PortEntryProtocol) (guestPort hostPort : JsNum) (pm pm2 : PortManager)
    (h : setPortMapping openPort cfg protocol guestPort hostPort pm = .ok pm2) :
    ∃ h2, pm2 = ⟨mapSet pm.ports guestPort (fromPorts h2 guestPort protocol)⟩ := by
  unfold setPortMapping at h
  by_cases hcond : ¬ openPort hostPort ∧ cfg
  · rw [if_pos hcond] at h
    rcases hr : getOpenPortInRange openPort (jsAdd hostPort 1)
        (jsAdd hostPort Constants.PORT_SEARCH_RANGE) with _ | r
    · rw [hr] at h
      cases h
    · rw [hr] at h
      exact ⟨r, (Except.ok.inj h).symm⟩
  · rw [if_neg hcond] at h
    exact ⟨hostPort, (Except.ok.inj h).symm⟩

end PortManagerModel

namespace PortManagerModel

open Js

theorem parseComposeLoop_inv (openPort : JsNum → Bool) (cfg : Bool)
    (entries : List ComposePortEntry) :
    ∀ (st : PortManager) (rdp : JsNum) (st2 : PortManager) (rdp2 : JsNum),
      parseComposeLoop openPort cfg entries st rdp = .ok (st2, rdp2) →
      (∀ kv ∈ st.ports, kv.1 ≠ some Constants.GUEST_RDP_PORT ∧
        ∃ h2, kv.2 = fromPorts h2 kv.1 none) →
      ∀ kv ∈ st2.ports, kv.1 ≠ some Constants.GUEST_RDP_PORT ∧
        ∃ h2, kv.2 = fromPorts h2 kv.1 none := by
  induction entries with
  | nil =>
    intro st rdp st2 rdp2 hrun hinv
    unfold parseComposeLoop at hrun
    have hp := Except.ok.inj hrun
    injection hp with h1 h2
    subst h1
    exact hinv
  | cons e0 rest ih =>
    intro st rdp st2 rdp2 hrun hinv
    unfold parseComposeLoop at hrun
    by_cases hcond : st.ports.any
        (fun kv => jsLe (getPortDistance kv.2.hostPort e0.hostPort) Constants.PORT_SEARCH_RANGE)
    · rw [if_pos hcond] at hrun
      by_cases hg : ({ e0 with hostPort := jsAdd e0.hostPort Constants.PORT_SPACING
            } : ComposePortEntry).guestPort = some Constants.GUEST_RDP_PORT
      · rw [if_pos hg] at hrun
        exact ih st _ st2 rdp2 hrun hinv
      · rw [if_neg hg] at hrun
        rcases hsp : setPortMapping openPort cfg none
            ({ e0 with hostPort := jsAdd e0.hostPort Constants.PORT_SPACING
              } : ComposePortEntry).guestPort
            ({ e0 with hostPort := jsAdd e0.hostPort Constants.PORT_SPACING
              } : ComposePortEntry).hostPort st with msg | pm1 <;> rw [hsp] at hrun
        · cases hrun
        · obtain ⟨h2v, rfl⟩ := setPortMapping_ok_shape _ _ _ _ _ _ _ hsp
          refine ih _ rdp st2 rdp2 hrun ?_
          intro kv hkv
          rcases mem_mapSet_full _ _ _ kv hkv with hold | rfl
          · exact hinv kv hold
          · exact ⟨hg, ⟨h2v, rfl⟩⟩
    · rw [if_neg hcond] at hrun
      by_cases hg : e0.guestPort = some Constants.GUEST_RDP_PORT
      · rw [if_pos hg] at hrun
        exact ih st _ st2 rdp2 hrun hinv
      · rw [if_neg hg] at hrun
        rcases hsp : setPortMapping openPort cfg none e0.guestPort e0.hostPort st
            with msg | pm1 <;> rw [hsp] at hrun
        · cases hrun
        · obtain ⟨h2v, rfl⟩ := setPortMapping_ok_shape _ _ _ _ _ _ _ hsp
          refine ih _ rdp st2 rdp2 hrun ?_
          intro kv hkv
          rcases mem_mapSet_full _ _ _ kv hkv with hold | rfl
          · exact hinv kv hold
          · exact ⟨hg, ⟨h2v, rfl⟩⟩

end PortManagerModel

namespace PortManagerModel

open Js

theorem entryStr_none_no_slash (e : ComposePortEntry) (hp : e.protocol = none) :
    '/' ∉ entryStr e := by
  unfold entryStr
  rw [hp]
  intro hm
  simp only [List.append_nil] at hm
  exact slash_not_mem_hostGuestStr e.hostPort e.guestPort hm

theorem entryStr_some (e : ComposePortEntry) (p : PortModel.PortEntryProtocol) :
    entryStr { e with protocol := some p }
      = (numToStr e.hostPort ++ ':' :: numToStr e.guestPort) ++ '/' :: PortModel.protoStr p := by
  unfold entryStr
  simp

theorem isSuffixOf_append_self (l t : JsStr) : l.isSuffixOf (t ++ l) = true :=
  List.isSuffixOf_iff_suffix.mpr ⟨t, rfl⟩

theorem bool_eq_true_of_ne_false (b : Bool) (h : ¬ b = false) : b = true := by
  cases b
  · exact absurd rfl h
  · rfl

theorem isSuffixOf_false_distinct (p1 p2 t : JsStr) (hlen : p1.length = p2.length)
    (hne : p1 ≠ p2) : p1.isSuffixOf (t ++ p2) = false := by
  by_contra h
  have hb := List.isSuffixOf_iff_suffix.mp (bool_eq_true_of_ne_false _ h)
  obtain ⟨t2, ht⟩ := hb
  have hl : t2.length = t.length := by
    have hlen2 := congrArg List.length ht
    simp only [List.length_append] at hlen2
    omega
  obtain ⟨-, h2⟩ := List.append_inj ht hl
  exact hne h2

theorem not_suffix_of_no_slash (l s : JsStr) (hc : '/' ∈ l) (hs : '/' ∉ s) :
    l.isSuffixOf s = false := by
  by_contra h
  obtain ⟨t2, ht⟩ := List.isSuffixOf_iff_suffix.mp (bool_eq_true_of_ne_false _ h)
  exact hs (ht ▸ List.mem_append.mpr (Or.inr hc))

end PortManagerModel

/-- C3: every port table produced by parseCompose holds exactly one entry
for the remote desktop guest port 3389; the serialized specification
emits exactly one /tcp string and exactly one /udp string for that entry,
both sharing its single resolved host port, and the table resolves guest
port 3389 to that host port.  Separately, a persisted specification whose
3389/tcp and 3389/udp leading host fields differ under strict inequality
yields no port configuration: getPortConfigurationFromCompose throws
internally, catches, and returns null. -/
theorem C3_rdp_symmetric_host_port :
    (∀ (openPort : Js.JsNum → Bool) (cfg : Bool) (raws : List Js.JsStr)
        (pm : PortManagerModel.PortManager),
      PortManagerModel.parseCompose openPort cfg raws = Except.ok pm →
      ∃ ent : PortManagerModel.ComposePortEntry,
        PortManagerModel.mapGet pm.ports (some Constants.GUEST_RDP_PORT) = some ent ∧
        ent.guestPort = some Constants.GUEST_RDP_PORT ∧
        PortManagerModel.getHostPort pm (some Constants.GUEST_RDP_PORT) = ent.hostPort ∧
        pm.ports.countP (fun kv => kv.1 = some Constants.GUEST_RDP_PORT) = 1 ∧
        (PortManagerModel.composeFormat pm).filter
            (fun s => (String.toList "/tcp").isSuffixOf s)
          = [PortManagerModel.entryStr { ent with protocol := some .tcp }] ∧
        (PortManagerModel.composeFormat pm).filter
            (fun s => (String.toList "/udp").isSuffixOf s)
          = [PortManagerModel.entryStr { ent with protocol := some .udp }]) ∧
    (∀ ports : List Js.JsStr,
      PortConfigModel.jsStrictNeq
          (PortConfigModel.extractPort ports
            (fun p => Js.jsIncludes PortConfigModel.rdpTcpNeedle p) PortConfigModel.rdpDefaultStr)
          (PortConfigModel.extractPort ports
            (fun p => Js.jsIncludes PortConfigModel.rdpUdpNeedle p) PortConfigModel.rdpDefaultStr)
        = true →
      PortConfigModel.getPortConfigurationFromCompose (some ports) = none) := by
  constructor
  · intro openPort cfg raws pm hrun
    unfold PortManagerModel.parseCompose at hrun
    rcases hloop : PortManagerModel.parseComposeLoop openPort cfg
        (raws.map PortManagerModel.parse) ⟨[]⟩ (some Constants.GUEST_RDP_PORT)
        with msg | res <;> rw [hloop] at hrun
    · cases hrun
    · rcases res with ⟨st2, rdp2⟩
      have hinv := PortManagerModel.parseComposeLoop_inv openPort cfg
        (raws.map PortManagerModel.parse) ⟨[]⟩ (some Constants.GUEST_RDP_PORT) st2 rdp2 hloop
        (fun kv hkv => absurd hkv (List.not_mem_nil kv))
      obtain ⟨h2v, rfl⟩ := PortManagerModel.setPortMapping_ok_shape _ _ _ _ _ _ _ hrun
      obtain ⟨hhost, hguest, hproto⟩ :=
        PortManagerModel.fromPorts_none_fields h2v (some Constants.GUEST_RDP_PORT)
      have hfresh : ∀ kv ∈ st2.ports, kv.1 ≠ some Constants.GUEST_RDP_PORT :=
        fun kv hkv => (hinv kv hkv).1
      have hmapset : PortManagerModel.mapSet st2.ports (some Constants.GUEST_RDP_PORT)
            (PortManagerModel.fromPorts h2v (some Constants.GUEST_RDP_PORT) none)
          = st2.ports ++ [(some Constants.GUEST_RDP_PORT,
              PortManagerModel.fromPorts h2v (some Constants.GUEST_RDP_PORT) none)] :=
        PortManagerModel.mapSet_fresh _ _ _ hfresh
      refine ⟨PortManagerModel.fromPorts h2v (some Constants.GUEST_RDP_PORT) none,
        PortManagerModel.mapGet_mapSet_self _ _ _, hguest, ?_, ?_, ?_, ?_⟩
      · unfold PortManagerModel.getHostPort
        rw [show (⟨PortManagerModel.mapSet st2.ports (some Constants.GUEST_RDP_PORT)
              (PortManagerModel.fromPorts h2v (some Constants.GUEST_RDP_PORT) none)⟩ :
            PortManagerModel.PortManager).ports
            = PortManagerModel.mapSet st2.ports (some Constants.GUEST_RDP_PORT)
              (PortManagerModel.fromPorts h2v (some Constants.GUEST_RDP_PORT) none) from rfl,
          PortManagerModel.mapGet_mapSet_self]
      · show (PortManagerModel.mapSet st2.ports (some Constants.GUEST_RDP_PORT)
            (PortManagerModel.fromPorts h2v (some Constants.GUEST_RDP_PORT) none)).countP _ = 1
        rw [hmapset, List.countP_append]
        have hz : st2.ports.countP
            (fun kv => decide (kv.1 = some Constants.GUEST_RDP_PORT)) = 0 := by
          rw [List.countP_eq_zero]
          intro kv hkv
          simp only [decide_eq_true_eq]
          exact hfresh kv hkv
        rw [hz]
        simp [List.countP_cons]
      · show ((PortManagerModel.mapSet st2.ports (some Constants.GUEST_RDP_PORT)
            (PortManagerModel.fromPorts h2v (some Constants.GUEST_RDP_PORT) none)).flatMap _).filter _ = _
        rw [hmapset, List.flatMap_append]
        rw [List.filter_append]
        have hpre : ((st2.ports.flatMap (fun kv =>
            if kv.2.guestPort ≠ some Constants.GUEST_RDP_PORT
            then [PortManagerModel.entryStr kv.2]
            else [PortManagerModel.entryStr { kv.2 with protocol := some .tcp },
                  PortManagerModel.entryStr { kv.2 with protocol := some .udp }]))).filter
            (fun s => (String.toList "/tcp").isSuffixOf s) = [] := by
          rw [List.filter_eq_nil_iff]
          intro s hs
          obtain ⟨kv, hkv, hsin⟩ := List.mem_flatMap.mp hs
          obtain ⟨hne, ⟨hv2, hkv2⟩⟩ := hinv kv hkv
          have hg2 : kv.2.guestPort = kv.1 := by
            rw [hkv2]
            exact (PortManagerModel.fromPorts_none_fields hv2 kv.1).2.1
          rw [if_pos (by rw [hg2]; exact hne), List.mem_singleton] at hsin
          subst hsin
          have hns : '/' ∉ PortManagerModel.entryStr kv.2 :=
            PortManagerModel.entryStr_none_no_slash kv.2 (by
              rw [hkv2]
              exact (PortManagerModel.fromPorts_none_fields hv2 kv.1).2.2)
          rw [show ((String.toList "/tcp").isSuffixOf (PortManagerModel.entryStr kv.2)) = false from
            PortManagerModel.not_suffix_of_no_slash _ _ (by decide) hns]
          simp
        rw [hpre]
        have htcp : ((String.toList "/tcp").isSuffixOf (PortManagerModel.entryStr
            { PortManagerModel.fromPorts h2v (some Constants.GUEST_RDP_PORT) none
              with protocol := some .tcp })) = true := by
          rw [PortManagerModel.entryStr_some]
          exact PortManagerModel.isSuffixOf_append_self _ _
        have hudp : ((String.toList "/tcp").isSuffixOf (PortManagerModel.entryStr
            { PortManagerModel.fromPorts h2v (some Constants.GUEST_RDP_PORT) none
              with protocol := some .udp })) = false := by
          rw [PortManagerModel.entryStr_some]
          exact PortManagerModel.isSuffixOf_false_distinct _ _ _ (by decide) (by decide)
        have hne2 : ¬ ((PortManagerModel.fromPorts h2v (some Constants.GUEST_RDP_PORT) none).guestPort
            ≠ some Constants.GUEST_RDP_PORT) := fun h => h hguest
        simp only [List.nil_append, List.flatMap_cons, List.flatMap_nil, List.append_nil, if_neg hne2]
        rw [List.filter_cons, if_pos htcp, List.filter_cons,
          if_neg (show ¬ _ from fun hc => absurd (hudp.symm.trans hc) (by decide)), List.filter_nil]
      · show ((PortManagerModel.mapSet st2.ports (some Constants.GUEST_RDP_PORT)
            (PortManagerModel.fromPorts h2v (some Constants.GUEST_RDP_PORT) none)).flatMap _).filter _ = _
        rw [hmapset, List.flatMap_append]
        rw [List.filter_append]
        have hpre : ((st2.ports.flatMap (fun kv =>
            if kv.2.guestPort ≠ some Constants.GUEST_RDP_PORT
            then [PortManagerModel.entryStr kv.2]
            else [PortManagerModel.entryStr { kv.2 with protocol := some .tcp },
                  PortManagerModel.entryStr { kv.2 with protocol := some .udp }]))).filter
            (fun s => (String.toList "/udp").isSuffixOf s) = [] := by
          rw [List.filter_eq_nil_iff]
          intro s hs
          obtain ⟨kv, hkv, hsin⟩ := List.mem_flatMap.mp hs
          obtain ⟨hne, ⟨hv2, hkv2⟩⟩ := hinv kv hkv
          have hg2 : kv.2.guestPort = kv.1 := by
            rw [hkv2]
            exact (PortManagerModel.fromPorts_none_fields hv2 kv.1).2.1
          rw [if_pos (by rw [hg2]; exact hne), List.mem_singleton] at hsin
          subst hsin
          have hns : '/' ∉ PortManagerModel.entryStr kv.2 :=
            PortManagerModel.entryStr_none_no_slash kv.2 (by
              rw [hkv2]
              exact (PortManagerModel.fromPorts_none_fields hv2 kv.1).2.2)
          rw [show ((String.toList "/udp").isSuffixOf (PortManagerModel.entryStr kv.2)) = false from
            PortManagerModel.not_suffix_of_no_slash _ _ (by decide) hns]
          simp
        rw [hpre]
        have htcp : ((String.toList "/udp").isSuffixOf (PortManagerModel.entryStr
            { PortManagerModel.fromPorts h2v (some Constants.GUEST_RDP_PORT) none
              with protocol := some .tcp })) = false := by
          rw [PortManagerModel.entryStr_some]
          exact PortManagerModel.isSuffixOf_false_distinct _ _ _ (by decide) (by decide)
        have hudp : ((String.toList "/udp").isSuffixOf (PortManagerModel.entryStr
            { PortManagerModel.fromPorts h2v (some Constants.GUEST_RDP_PORT) none
              with protocol := some .udp })) = true := by
          rw [PortManagerModel.entryStr_some]
          exact PortManagerModel.isSuffixOf_append_self _ _
        have hne2 : ¬ ((PortManagerModel.fromPorts h2v (some Constants.GUEST_RDP_PORT) none).guestPort
            ≠ some Constants.GUEST_RDP_PORT) := fun h => h hguest
        simp only [List.nil_append, List.flatMap_cons, List.flatMap_nil, List.append_nil, if_neg hne2]
        rw [List.filter_cons,
          if_neg (show ¬ _ from fun hc => absurd (htcp.symm.trans hc) (by decide)),
          List.filter_cons, if_pos hudp, List.filter_nil]
  · intro ports hneq
    unfold PortConfigModel.getPortConfigurationFromCompose
    dsimp only
    rw [if_pos hneq]

/-- C3 witness: the specification ["8000:8000", "3390:3389/tcp",
"3390:3389/udp"], negotiated with every port reported free and probing
off, maps guest 3389 to host 3390 with one tcp and one udp serialized
entry; and a file whose 3389/tcp host (3390) differs from its 3389/udp
host (3391) yields no configuration. -/
theorem C3_rdp_symmetric_host_port_witness :
    (∃ ent : PortManagerModel.ComposePortEntry,
      PortManagerModel.mapGet
          ((PortManagerModel.parseCompose (fun _ => true) false
            [String.toList "8000:8000", String.toList "3390:3389/tcp",
             String.toList "3390:3389/udp"]).toOption.getD ⟨[]⟩).ports
          (some Constants.GUEST_RDP_PORT) = some ent ∧
      ent.guestPort = some Constants.GUEST_RDP_PORT ∧
      PortManagerModel.getHostPort
          ((PortManagerModel.parseCompose (fun _ => true) false
            [String.toList "8000:8000", String.toList "3390:3389/tcp",
             String.toList "3390:3389/udp"]).toOption.getD ⟨[]⟩)
          (some Constants.GUEST_RDP_PORT) = ent.hostPort ∧
      ((PortManagerModel.parseCompose (fun _ => true) false
            [String.toList "8000:8000", String.toList "3390:3389/tcp",
             String.toList "3390:3389/udp"]).toOption.getD ⟨[]⟩).ports.countP
          (fun kv => kv.1 = some Constants.GUEST_RDP_PORT) = 1 ∧
      (PortManagerModel.composeFormat
          ((PortManagerModel.parseCompose (fun _ => true) false
            [String.toList "8000:8000", String.toList "3390:3389/tcp",
             String.toList "3390:3389/udp"]).toOption.getD ⟨[]⟩)).filter
          (fun s => (String.toList "/tcp").isSuffixOf s)
        = [PortManagerModel.entryStr { ent with protocol := some .tcp }] ∧
      (PortManagerModel.composeFormat
          ((PortManagerModel.parseCompose (fun _ => true) false
            [String.toList "8000:8000", String.toList "3390:3389/tcp",
             String.toList "3390:3389/udp"]).toOption.getD ⟨[]⟩)).filter
          (fun s => (String.toList "/udp").isSuffixOf s)
        = [PortManagerModel.entryStr { ent with protocol := some .udp }]) ∧
    PortConfigModel.getPortConfigurationFromCompose
        (some [String.toList "3390:3389/tcp", String.toList "3391:3389/udp"]) = none := by
  constructor
  · exact C3_rdp_symmetric_host_port.1 (fun _ => true) false
      [String.toList "8000:8000", String.toList "3390:3389/tcp",
       String.toList "3390:3389/udp"] _ (by rfl)
  · exact C3_rdp_symmetric_host_port.2
      [String.toList "3390:3389/tcp", String.toList "3391:3389/udp"] (by rfl)

/-- C10: the liveness probe isPortOpen settles exactly on the two handled
outcomes: a successful listen resolves true with the socket released, an
EADDRINUSE bind error resolves false, and a bind error with any other
code (such as EACCES) settles neither handler, so the promise never
settles. -/
theorem C10_probe_settlement :
    PortManagerModel.isPortOpenRun .listening = (some true, true) ∧
    PortManagerModel.isPortOpenRun (.errorCode (String.toList "EADDRINUSE")) = (some false, false) ∧
    ∀ code : Js.JsStr, code ≠ String.toList "EADDRINUSE" →
      PortManagerModel.isPortOpenRun (.errorCode code) = (none, false) := by
  refine ⟨rfl, rfl, ?_⟩
  intro code hc
  have hc2 : ¬ (code = ('E' :: 'A' :: 'D' :: 'D' :: 'R' :: 'I' :: 'N' :: 'U' :: 'S' :: 'E' :: [])) := hc
  simp only [PortManagerModel.isPortOpenRun, if_neg hc2]

/-- C10 witness: the EACCES bind error is not EADDRINUSE and leaves the
probe promise unsettled. -/
theorem C10_probe_settlement_witness :
    String.toList "EACCES" ≠ String.toList "EADDRINUSE" ∧
    PortManagerModel.isPortOpenRun (.errorCode (String.toList "EACCES")) = (none, false) :=
  ⟨by decide, C10_probe_settlement.2.2 (String.toList "EACCES") (by decide)⟩

/-- C2: the forward scan violates its claimed window.  Under an oracle
that reports every port below 111 as taken and every port from 111 up as
free, negotiating host port 10 (probing enabled) has every candidate of
the claimed window 11 .. 110 taken, so the claim requires the
port-exhaustion error; instead setPortMapping returns successfully with
host port 111, outside the window, because the loop of getOpenPortInRange
compares its counter, not the candidate, against the upper bound and so
scans far past minPort + PORT_SEARCH_RANGE. -/
theorem C2_search_window_overrun :
    PortManagerModel.setPortMapping
        (fun p => match p with | some x => decide (111 ≤ x) | none => false)
        true none (some 5) (some 10) ⟨[]⟩
      = Except.ok ⟨[(some 5, PortManagerModel.fromPorts (some 111) (some 5) none)]⟩ ∧
    (fun p : Js.JsNum => match p with | some x => decide (111 ≤ x) | none => false)
        (some (10 : Int)) = false ∧
    ((List.range 100).all (fun j =>
      ! (fun p : Js.JsNum => match p with | some x => decide (111 ≤ x) | none => false)
          (some (11 + (j : Int))))) = true ∧
    Js.jsLe (some 111) ((10 : Int) + Constants.PORT_SEARCH_RANGE) = false := by
  refine ⟨by rfl, by rfl, by decide, by rfl⟩

/-- C5: pairwise separation fails.  Negotiating 8000:8000, 9000:9000 and
8050:8050 with every port reported free shifts the third candidate once
(8050 is within 100 of 8000) to 9050 and stores it without rechecking,
leaving the accepted bindings 9000 and 9050 only 50 apart, within
PORT_SEARCH_RANGE. -/
theorem C5_spacing_counterexample :
    PortManagerModel.parseCompose (fun _ => true) false
        [String.toList "8000:8000", String.toList "9000:9000", String.toList "8050:8050"]
      = Except.ok ⟨[(some 8000, PortManagerModel.fromPorts (some 8000) (some 8000) none),
                    (some 9000, PortManagerModel.fromPorts (some 9000) (some 9000) none),
                    (some 8050, PortManagerModel.fromPorts (some 9050) (some 8050) none),
                    (some 3389, PortManagerModel.fromPorts (some 3389) (some 3389) none)]⟩ ∧
    (PortManagerModel.fromPorts (some 9000) (some 9000) none).hostPort = some 9000 ∧
    (PortManagerModel.fromPorts (some 9050) (some 8050) none).hostPort = some 9050 ∧
    Js.jsLe (PortManagerModel.getPortDistance (some 9000) (some 9050))
        Constants.PORT_SEARCH_RANGE = true := by
  refine ⟨by rfl, by rfl, by rfl, by rfl⟩

/-- C5 amended: one loop step of negotiation shifts a non-remote-desktop
candidate forward by PORT_SPACING exactly when its host port is within
PORT_SEARCH_RANGE of some already-accepted binding, and stores the
shifted candidate through setPortMapping without rechecking it against
the table; pairwise separation of the final table is therefore not
re-established after a shift. -/
theorem C5_spacing_amended (openPort : Js.JsNum → Bool) (cfg : Bool)
    (e0 : PortManagerModel.ComposePortEntry) (rest : List PortManagerModel.ComposePortEntry)
    (pm : PortManagerModel.PortManager) (rdp : Js.JsNum)
    (hguest : e0.guestPort ≠ some Constants.GUEST_RDP_PORT) :
    PortManagerModel.parseComposeLoop openPort cfg (e0 :: rest) pm rdp
      = (match PortManagerModel.setPortMapping openPort cfg none e0.guestPort
            (if pm.ports.any (fun kv =>
                Js.jsLe (PortManagerModel.getPortDistance kv.2.hostPort e0.hostPort)
                  Constants.PORT_SEARCH_RANGE)
             then Js.jsAdd e0.hostPort Constants.PORT_SPACING
             else e0.hostPort) pm with
         | .error msg => .error msg
         | .ok pm1 => PortManagerModel.parseComposeLoop openPort cfg rest pm1 rdp) := by
  cases hany : pm.ports.any (fun kv =>
      Js.jsLe (PortManagerModel.getPortDistance kv.2.hostPort e0.hostPort)
        Constants.PORT_SEARCH_RANGE) with
  | false =>
    simp only [PortManagerModel.parseComposeLoop, hany, if_neg hguest, Bool.false_eq_true,
      if_false]
  | true =>
    have hguest2 : ¬ (({ e0 with hostPort := Js.jsAdd e0.hostPort Constants.PORT_SPACING } :
        PortManagerModel.ComposePortEntry).guestPort = some Constants.GUEST_RDP_PORT) := hguest
    simp only [PortManagerModel.parseComposeLoop, hany, if_true, if_neg hguest2]

/-- C5 amended witness: with 8000 already accepted, the candidate
8050:8050 is within range, is shifted to 9050 and stored as such. -/
theorem C5_spacing_amended_witness :
    PortManagerModel.parseComposeLoop (fun _ => true) false
        [⟨some 8050, some 8050, none⟩]
        ⟨[(some 8000, ⟨some 8000, some 8000, none⟩)]⟩ (some 3389)
      = (match PortManagerModel.setPortMapping (fun _ => true) false none (some 8050)
            (if (⟨[(some 8000, ⟨some 8000, some 8000, none⟩)]⟩ :
                PortManagerModel.PortManager).ports.any (fun kv =>
                Js.jsLe (PortManagerModel.getPortDistance kv.2.hostPort (some 8050))
                  Constants.PORT_SEARCH_RANGE)
             then Js.jsAdd (some 8050) Constants.PORT_SPACING
             else some 8050) ⟨[(some 8000, ⟨some 8000, some 8000, none⟩)]⟩ with
         | .error msg => .error msg
         | .ok pm1 => PortManagerModel.parseComposeLoop (fun _ => true) false [] pm1 (some 3389)) :=
  C5_spacing_amended (fun _ => true) false ⟨some 8050, some 8050, none⟩ []
    ⟨[(some 8000, ⟨some 8000, some 8000, none⟩)]⟩ (some 3389) (by decide)

/-- C4: the adapter does not map every unrecognized native status to a
member of the enumeration: the undocumented runtime status "removing"
misses the status lookup object, and getStatus returns the JavaScript
undefined (`none`), which is no member of the closed enumeration. -/
theorem C4_unrecognized_counterexample :
    Docker.getStatus (some (String.toList "removing")) = none := rfl

/-- C4 amended: getStatus maps each of the six documented native strings
to one enumeration member, maps a failed invocation to UNKNOWN and never
throws, but returns undefined (no enumeration member) for every trimmed
stdout outside the six documented keys. -/
theorem C4_getStatus_amended :
    Docker.getStatus (some (String.toList "created")) = some Docker.ContainerStatus.CREATED ∧
    Docker.getStatus (some (String.toList "restarting")) = some Docker.ContainerStatus.UNKNOWN ∧
    Docker.getStatus (some (String.toList "running")) = some Docker.ContainerStatus.RUNNING ∧
    Docker.getStatus (some (String.toList "paused")) = some Docker.ContainerStatus.PAUSED ∧
    Docker.getStatus (some (String.toList "exited")) = some Docker.ContainerStatus.EXITED ∧
    Docker.getStatus (some (String.toList "dead")) = some Docker.ContainerStatus.UNKNOWN ∧
    Docker.getStatus none = some Docker.ContainerStatus.UNKNOWN ∧
    ∀ s : Js.JsStr,
      Js.jsTrim s ∉ [String.toList "created", String.toList "restarting",
        String.toList "running", String.toList "paused", String.toList "exited",
        String.toList "dead"] →
      Docker.getStatus (some s) = none := by
  refine ⟨rfl, rfl, rfl, rfl, rfl, rfl, rfl, ?_⟩
  intro s hs
  simp only [List.mem_cons, List.not_mem_nil, or_false, not_or] at hs
  obtain ⟨h1, h2, h3, h4, h5, h6⟩ := hs
  have h1b : ¬ (Js.jsTrim s = ('c' :: 'r' :: 'e' :: 'a' :: 't' :: 'e' :: 'd' :: [])) := h1
  have h2b : ¬ (Js.jsTrim s = ('r' :: 'e' :: 's' :: 't' :: 'a' :: 'r' :: 't' :: 'i' :: 'n' :: 'g' :: [])) := h2
  have h3b : ¬ (Js.jsTrim s = ('r' :: 'u' :: 'n' :: 'n' :: 'i' :: 'n' :: 'g' :: [])) := h3
  have h4b : ¬ (Js.jsTrim s = ('p' :: 'a' :: 'u' :: 's' :: 'e' :: 'd' :: [])) := h4
  have h5b : ¬ (Js.jsTrim s = ('e' :: 'x' :: 'i' :: 't' :: 'e' :: 'd' :: [])) := h5
  have h6b : ¬ (Js.jsTrim s = ('d' :: 'e' :: 'a' :: 'd' :: [])) := h6
  show Docker.statusMap (Js.jsTrim s) = none
  simp only [Docker.statusMap, if_neg h1b, if_neg h2b, if_neg h3b, if_neg h4b, if_neg h5b,
    if_neg h6b]

/-- C4 amended witness: the trimmed status "removing" is outside the six
documented keys and getStatus yields undefined on it. -/
theorem C4_getStatus_amended_witness :
    Js.jsTrim (String.toList "removing") ∉ [String.toList "created", String.toList "restarting",
      String.toList "running", String.toList "paused", String.toList "exited",
      String.toList "dead"] ∧
    Docker.getStatus (some (String.toList "removing")) = none :=
  ⟨by decide, C4_getStatus_amended.2.2.2.2.2.2.2 (String.toList "removing") (by decide)⟩

/-- C7: collapsing consecutive duplicate assignments, every install run,
whichever of the four fallible steps throws first (or none), follows the
claimed linear order from IDLE up to the state of the failing step and
then terminates in INSTALL_ERROR, or completes the full linear order when
nothing fails; no state change follows the terminal one. -/
theorem C7_linear_install_trace :
    ∀ composeFails oemFails startFails preinstallFails : Bool,
      Install.dedupConsec
          (Install.InstallState.IDLE ::
            Install.runInstall composeFails oemFails startFails preinstallFails)
        = Install.claimedTrace composeFails oemFails startFails preinstallFails := by
  decide

/-- C6: writing the specification file is not an atomic replace.  On a
concrete document, writeCompose performs exactly one direct writeFileSync
of the serialized content to the final specification path, with no rename
anywhere in the trace, so an interrupted write leaves a partially-written
file observable at that path. -/
theorem C6_atomic_write_counterexample :
    Docker.writeCompose (String.toList "/wb") ⟨[String.toList "80:80"]⟩
      = [Docker.FsOp.writeFile (Docker.composeFilePath (String.toList "/wb"))
          (Docker.FileContent.yamlOf ⟨[String.toList "80:80"]⟩)] ∧
    (Docker.writeCompose (String.toList "/wb") ⟨[String.toList "80:80"]⟩).all
        (fun op => match op with
          | Docker.FsOp.rename _ _ => false
          | _ => true) = true :=
  ⟨rfl, rfl⟩

/-- C6 amended: the backup half of the claim holds: whatever the running
and backup-directory preconditions, replaceCompose renames the existing
specification file to a timestamped name under the backup directory
strictly before the new content is written to the specification path. -/
theorem C6_backup_before_write (dir : Js.JsStr) (now : Nat)
    (running bdirExists : Bool) (c : Docker.ComposeConfig) :
    ∃ i j : Nat, i < j ∧
      (WinboatModel.replaceCompose dir now running bdirExists c).get? i
        = some (Docker.FsOp.rename (Docker.composeFilePath dir)
            (WinboatModel.backupName dir now)) ∧
      (WinboatModel.replaceCompose dir now running bdirExists c).get? j
        = some (Docker.FsOp.writeFile (Docker.composeFilePath dir)
            (Docker.FileContent.yamlOf c)) := by
  cases running <;> cases bdirExists
  · exact ⟨2, 3, by omega, rfl, rfl⟩
  · exact ⟨1, 2, by omega, rfl, rfl⟩
  · exact ⟨3, 4, by omega, rfl, rfl⟩
  · exact ⟨2, 3, by omega, rfl, rfl⟩

/-- C8: the metrics are not forced to their zeroed defaults on the
transition out of running: ticking a fully running state with nonzero
metrics to EXITED leaves the metrics snapshot unchanged and different
from the zeroed defaults. -/
theorem C8_metrics_counterexample :
    (WinboatModel.statusTick
        ⟨Docker.ContainerStatus.RUNNING, true, true, true, true, true, true,
          ⟨5, 1, 2, 3, 4, 5, 6, 7⟩, true, true⟩
        Docker.ContainerStatus.EXITED).metrics = ⟨5, 1, 2, 3, 4, 5, 6, 7⟩ ∧
    (⟨5, 1, 2, 3, 4, 5, 6, 7⟩ : WinboatModel.Metrics) ≠ WinboatModel.defaultMetrics :=
  ⟨rfl, by decide⟩

/-- C8 amended: on a status-poll tick that observes a change from running
to any other status, all four dependent poller handles are cleared, the
guest-online flag falls to false when its poller was set, the
remote-desktop-connected flag falls to false when its poller was set, the
hardware-control manager is destroyed when its poller was set, the metrics
snapshot is left untouched (not zeroed), and a further tick to any
non-running status leaves all four handles cleared. -/
theorem C8_transition_amended (st : WinboatModel.WinboatState)
    (ns ns2 : Docker.ContainerStatus)
    (hrun : st.containerStatus = Docker.ContainerStatus.RUNNING)
    (hns : ns ≠ Docker.ContainerStatus.RUNNING)
    (hns2 : ns2 ≠ Docker.ContainerStatus.RUNNING) :
    (WinboatModel.statusTick st ns).healthInterval = false ∧
    (WinboatModel.statusTick st ns).metricsInterval = false ∧
    (WinboatModel.statusTick st ns).rdpConnectionStatusInterval = false ∧
    (WinboatModel.statusTick st ns).qmpInterval = false ∧
    (WinboatModel.statusTick st ns).isOnline
      = (if st.healthInterval then false else st.isOnline) ∧
    (WinboatModel.statusTick st ns).rdpConnected
      = (if st.rdpConnectionStatusInterval then false else st.rdpConnected) ∧
    (WinboatModel.statusTick st ns).qmpMgr
      = (if st.qmpInterval then false else st.qmpMgr) ∧
    (WinboatModel.statusTick st ns).metrics = st.metrics ∧
    (WinboatModel.statusTick st ns).containerStatus = ns ∧
    (WinboatModel.statusTick (WinboatModel.statusTick st ns) ns2).healthInterval = false ∧
    (WinboatModel.statusTick (WinboatModel.statusTick st ns) ns2).metricsInterval = false ∧
    (WinboatModel.statusTick (WinboatModel.statusTick st ns) ns2).rdpConnectionStatusInterval = false ∧
    (WinboatModel.statusTick (WinboatModel.statusTick st ns) ns2).qmpInterval = false := by
  have hne : ¬ (ns = st.containerStatus) := by
    rw [hrun]; exact hns
  have hst1 : WinboatModel.statusTick st ns
      = WinboatModel.destroyAPIIntervals { st with containerStatus := ns } := by
    simp only [WinboatModel.statusTick, if_neg hne, if_neg hns]
  rw [hst1]
  have hd : ∀ u : WinboatModel.WinboatState,
      WinboatModel.statusTick (WinboatModel.destroyAPIIntervals u) ns2
        = WinboatModel.destroyAPIIntervals u ∨
      WinboatModel.statusTick (WinboatModel.destroyAPIIntervals u) ns2
        = WinboatModel.destroyAPIIntervals
            { WinboatModel.destroyAPIIntervals u with containerStatus := ns2 } := by
    intro u
    by_cases h2 : ns2 = (WinboatModel.destroyAPIIntervals u).containerStatus
    · left
      simp only [WinboatModel.statusTick, if_pos h2]
    · right
      simp only [WinboatModel.statusTick, if_neg h2, if_neg hns2]
  refine ⟨rfl, rfl, rfl, rfl, rfl, rfl, rfl, rfl, rfl, ?_, ?_, ?_, ?_⟩ <;>
    rcases hd { st with containerStatus := ns } with h | h <;> rw [h] <;> rfl

/-- C8 amended witness: a fully running state with nonzero metrics ticked
to EXITED and then to PAUSED: handles cleared, flags dropped, metrics
kept. -/
theorem C8_transition_amended_witness :
    (⟨Docker.ContainerStatus.RUNNING, true, true, true, true, true, true,
        ⟨5, 1, 2, 3, 4, 5, 6, 7⟩, true, true⟩ :
      WinboatModel.WinboatState).containerStatus = Docker.ContainerStatus.RUNNING ∧
    Docker.ContainerStatus.EXITED ≠ Docker.ContainerStatus.RUNNING ∧
    Docker.ContainerStatus.PAUSED ≠ Docker.ContainerStatus.RUNNING ∧
    ((WinboatModel.statusTick
        ⟨Docker.ContainerStatus.RUNNING, true, true, true, true, true, true,
          ⟨5, 1, 2, 3, 4, 5, 6, 7⟩, true, true⟩
        Docker.ContainerStatus.EXITED).healthInterval = false ∧
     (WinboatModel.statusTick
        ⟨Docker.ContainerStatus.RUNNING, true, true, true, true, true, true,
          ⟨5, 1, 2, 3, 4, 5, 6, 7⟩, true, true⟩
        Docker.ContainerStatus.EXITED).metrics = ⟨5, 1, 2, 3, 4, 5, 6, 7⟩) :=
  ⟨rfl, by decide, by decide,
    (C8_transition_amended
      ⟨Docker.ContainerStatus.RUNNING, true, true, true, true, true, true,
        ⟨5, 1, 2, 3, 4, 5, 6, 7⟩, true, true⟩
      Docker.ContainerStatus.EXITED Docker.ContainerStatus.PAUSED
      rfl (by decide) (by decide)).1,
    ((C8_transition_amended
      ⟨Docker.ContainerStatus.RUNNING, true, true, true, true, true, true,
        ⟨5, 1, 2, 3, 4, 5, 6, 7⟩, true, true⟩
      Docker.ContainerStatus.EXITED Docker.ContainerStatus.PAUSED
      rfl (by decide) (by decide)).2.2.2.2.2.2.2.1)⟩
